import Mathlib

/-!
Verification of the xcresult-json multi-format parsing core.

The development shallowly embeds the JavaScript/TypeScript source:
raw JSON payloads become the inductive type JSValue (JS runtime values,
including undefined and NaN), property access, optional chaining,
truthiness, the logical operators, iteration and the arithmetic used by
the parsers are modelled as total (or Except-valued, where the source can
throw a TypeError) Lean functions, and each source function of interest is
translated one-to-one.  Asynchronous awaits in the source are sequential
in the reference implementation, so they are modelled by sequential
evaluation; recursive traversals of untyped JSON trees take an explicit
fuel argument to make termination evident.
-/

/-- A JavaScript runtime value as it can occur while parsing JSON data:
JSON scalars, arrays and objects, plus the JS-specific undefined and NaN.
Numbers are modelled as rationals. -/
inductive JSValue where
  | null
  | undefined
  | nan
  | bool (b : Bool)
  | num (q : ℚ)
  | str (s : String)
  | arr (elems : List JSValue)
  | obj (fields : List (String × JSValue))
deriving Repr

/-- JS truthiness: null, undefined, NaN, false, 0 and the empty string are
falsy; every array and object (including empty ones) is truthy. -/
def truthy : JSValue → Bool
  | .null => false
  | .undefined => false
  | .nan => false
  | .bool b => b
  | .num q => q != 0
  | .str s => s != ""
  | .arr _ => true
  | .obj _ => true

/-- typeof v === number (NaN is a number in JS). -/
def isNumber : JSValue → Bool
  | .num _ => true
  | .nan => true
  | _ => false

/-- Array.isArray. -/
def isArray : JSValue → Bool
  | .arr _ => true
  | _ => false

/-- Strict equality of a JS value against a string literal, as in
status === `Failure`.  A string compares equal to the literal exactly
when it is that string; values of any other type compare unequal. -/
def jsStrictEqStr (v : JSValue) (s : String) : Bool :=
  match v with
  | .str t => t == s
  | _ => false

/-- Property read on an object field list (first binding wins; JSON
objects are assumed free of duplicate keys). -/
def fieldLookup (fields : List (String × JSValue)) (key : String) : JSValue :=
  match fields.find? (fun kv => kv.1 == key) with
  | some kv => kv.2
  | none => .undefined

/-- Optional-chained property access a?.k.  Nullish bases short-circuit to
undefined; primitive bases are boxed and yield undefined for absent
properties; arrays and strings expose length. -/
def optChain (v : JSValue) (key : String) : JSValue :=
  match v with
  | .null => .undefined
  | .undefined => .undefined
  | .obj fields => fieldLookup fields key
  | .arr xs => if key == "length" then .num xs.length else .undefined
  | .str s => if key == "length" then .num s.length else .undefined
  | _ => .undefined

/-- Plain property access a.k, which throws a TypeError when the base is
null or undefined and otherwise behaves like optional chaining. -/
def getField (v : JSValue) (key : String) : Except String JSValue :=
  match v with
  | .null => .error ("TypeError: cannot read properties of null (reading " ++ key ++ ")")
  | .undefined =>
      .error ("TypeError: cannot read properties of undefined (reading " ++ key ++ ")")
  | _ => .ok (optChain v key)

/-- a?.b?.c. -/
def optChain2 (v : JSValue) (k1 k2 : String) : JSValue :=
  optChain (optChain v k1) k2

/-- a?.b?.c?.d. -/
def optChain3 (v : JSValue) (k1 k2 k3 : String) : JSValue :=
  optChain (optChain2 v k1 k2) k3

/-- JS logical or: returns the left operand when truthy, else the right. -/
def jsOr (a b : JSValue) : JSValue :=
  if truthy a then a else b

/-- JS logical and: returns the left operand when falsy, else the right. -/
def jsAnd (a b : JSValue) : JSValue :=
  if truthy a then b else a

/-- JS nullish coalescing a ?? b. -/
def jsNullish (a b : JSValue) : JSValue :=
  match a with
  | .null => b
  | .undefined => b
  | _ => a

/-- Indexing v[0] for the value shapes reachable here: first array
element, first character of a string, property 0 of an object;
undefined otherwise (the parsers only index values already known to be
truthy, so no nullish base can occur). -/
def jsIndex0 : JSValue → JSValue
  | .arr (x :: _) => x
  | .arr [] => .undefined
  | .str s =>
      match s.data with
      | c :: _ => .str (String.singleton c)
      | [] => .undefined
  | .obj fields => fieldLookup fields "0"
  | _ => .undefined

/-- Spread / for..of iteration of a JS value: arrays yield their
elements, strings their characters; every other value is not iterable
and throws a TypeError. -/
def jsSpreadList : JSValue → Except String (List JSValue)
  | .arr xs => .ok xs
  | .str s => .ok (s.data.map (fun c => .str (String.singleton c)))
  | v => .error ("TypeError: value is not iterable: " ++ reprStr v)

/-- Digits of the fractional part of n/d, up to the given fuel. -/
def fracDigits : ℕ → ℕ → ℕ → String
  | _, _, 0 => ""
  | r, d, fuel + 1 =>
      if r = 0 then ""
      else toString (r * 10 / d) ++ fracDigits (r * 10 % d) d fuel

/-- Decimal rendering of a rational, as JS prints the corresponding
number when its decimal expansion terminates. -/
def ratToJsStr (q : ℚ) : String :=
  let sign := if q < 0 then "-" else ""
  let n := q.num.natAbs
  let d := q.den
  if n % d = 0 then sign ++ toString (n / d)
  else sign ++ toString (n / d) ++ "." ++ fracDigits (n % d) d 30

/-- JS ToString for JSON-shaped data, staged by an upper bound on the
nesting depth so that the recursion through nested arrays is structural:
the first component converts a value (null, undefined, NaN, booleans,
numbers, strings, arrays joined by commas, plain objects), the second
converts an array's element list, rendering null and undefined elements
as empty strings as Array.prototype.toString does.  Number formatting
matches JS for integers and terminating decimals, the only numeric
shapes JSON input produces here. -/
def jsToStrF : ℕ → (JSValue → String) × (List JSValue → String)
  | 0 => (fun _ => "", fun _ => "")
  | fuel + 1 =>
      let prev := jsToStrF fuel
      let valF : JSValue → String := fun v =>
        match v with
        | .null => "null"
        | .undefined => "undefined"
        | .nan => "NaN"
        | .bool b => if b then "true" else "false"
        | .num q => ratToJsStr q
        | .str s => s
        | .arr xs => prev.2 xs
        | .obj _ => "[object Object]"
      let elemF : JSValue → String := fun v =>
        match v with
        | .null => ""
        | .undefined => ""
        | w => valF w
      (valF, fun xs => String.intercalate "," (xs.map elemF))

/-- The depth bound used for string conversion: reduction peels one
stage per nesting level only, and a JSON value nested a million levels
deep would long since have overflowed the JS call stack. -/
def jsToStrDepth : ℕ := 1000000

/-- JS ToString of one value. -/
def jsToStr (v : JSValue) : String := (jsToStrF jsToStrDepth).1 v

/-- Array.prototype.toString of an element list. -/
def jsToStrElems (xs : List JSValue) : String := (jsToStrF jsToStrDepth).2 xs

/-- ToPrimitive as used by the additive operators: arrays and objects
convert through their string form, every other value is already
primitive. -/
def toPrimitive : JSValue → JSValue
  | .arr xs => .str (jsToStrElems xs)
  | .obj _ => .str "[object Object]"
  | v => v

/-- ToNumber of a trimmed numeric string: empty means 0; an optional
sign followed by decimal digits, optionally with a fractional part,
parses to the obvious rational; anything else is NaN (none).
Hexadecimal and exponent forms do not arise in this data. -/
def strToNumber (s : String) : Option ℚ :=
  let t := s.trim
  if t = "" then some 0
  else
    let (sign, body) :=
      if t.startsWith "-" then ((-1 : ℚ), t.drop 1)
      else if t.startsWith "+" then ((1 : ℚ), t.drop 1)
      else ((1 : ℚ), t)
    let parts := body.splitOn "."
    match parts with
    | [intPart] =>
        if intPart ≠ "" ∧ intPart.all Char.isDigit then
          some (sign * (intPart.toNat! : ℚ))
        else none
    | [intPart, fracPart] =>
        if (intPart ++ fracPart) ≠ "" ∧ intPart.all Char.isDigit ∧
            fracPart.all Char.isDigit then
          let ip : ℚ := if intPart = "" then 0 else (intPart.toNat! : ℚ)
          let fp : ℚ :=
            if fracPart = "" then 0
            else (fracPart.toNat! : ℚ) / ((10 : ℚ) ^ fracPart.length)
          some (sign * (ip + fp))
        else none
    | _ => none

/-- JS ToNumber on primitives (after ToPrimitive); none stands for NaN. -/
def toNumber : JSValue → Option ℚ
  | .null => some 0
  | .undefined => none
  | .nan => none
  | .bool b => some (if b then 1 else 0)
  | .num q => some q
  | .str s => strToNumber s
  | .arr xs => strToNumber (jsToStrElems xs)
  | .obj _ => none

/-- JS binary +: after ToPrimitive, string operands concatenate,
otherwise both operands convert to numbers (NaN-propagating). -/
def jsAdd (a b : JSValue) : JSValue :=
  let pa := toPrimitive a
  let pb := toPrimitive b
  match pa, pb with
  | .str sa, _ => .str (sa ++ jsToStr pb)
  | _, .str sb => .str (jsToStr pa ++ sb)
  | _, _ =>
      match toNumber pa, toNumber pb with
      | some x, some y => .num (x + y)
      | _, _ => .nan

/-- JS binary -: both operands convert to numbers, NaN-propagating. -/
def jsSub (a b : JSValue) : JSValue :=
  match toNumber (toPrimitive a), toNumber (toPrimitive b) with
  | some x, some y => .num (x - y)
  | _, _ => .nan

/-- JS comparison v > 0 (numeric comparison after coercion; NaN
comparisons are false). -/
def jsGtZero (v : JSValue) : Bool :=
  match toNumber (toPrimitive v) with
  | some q => q > 0
  | none => false

/-- String.prototype.includes for a string receiver. -/
def strContainsB (s pat : String) : Bool :=
  decide (pat.data <:+: s.data)

/-! ## Canonical report model

The runtime shapes of the objects the parsers construct.  Fields that the
source copies from untyped JSON keep the JSValue type (TypeScript
annotations are erased at runtime); totalSuites is always an array
length.  failureMessage is an Option because the source either adds the
field via a conditional object spread or writes undefined into it. -/

structure TestResult where
  name : JSValue
  status : JSValue
  duration : JSValue
  failureMessage : Option JSValue
deriving Repr

structure SuiteResult where
  suiteName : JSValue
  duration : JSValue
  failed : List TestResult
  passed : List TestResult
deriving Repr

structure Report where
  totalSuites : ℕ
  totalTests : JSValue
  totalDuration : JSValue
  suites : List SuiteResult
deriving Repr

/-! ## Parser registry (src/formats/registry.ts)

A format parser is a name, an integer priority, a recognition predicate
and a transform.  Both operations may throw, which the Except monad
models. -/

structure FormatParser where
  name : String
  priority : Int
  canParse : JSValue → Except String JSValue
  parse : String → JSValue → Except String Report

/-- One insertion step of a stable sort by descending priority. -/
def insertByPriority (p : FormatParser) : List FormatParser → List FormatParser
  | [] => [p]
  | q :: qs => if p.priority > q.priority then p :: q :: qs else q :: insertByPriority p qs

/-- Stable sort by descending priority, modelling
Array.prototype.sort with comparator (a, b) => b.priority - a.priority
(ECMAScript requires sort stability; the algorithm itself is
unspecified, so a stable insertion sort is a faithful model). -/
def sortByPriorityDesc : List FormatParser → List FormatParser
  | [] => []
  | x :: xs => insertByPriority x (sortByPriorityDesc xs)

/-- ParserRegistry.register: push the parser, then re-sort the whole
list by descending priority. -/
def ParserRegistry.register (parsers : List FormatParser) (p : FormatParser) :
    List FormatParser :=
  sortByPriorityDesc (parsers ++ [p])

/-- The per-parser error captured by ParserRegistry.parse when canParse
or parse throws. -/
def parserFailedMsg (p : FormatParser) (e : String) : String :=
  p.name ++ " parser failed: " ++ e

/-- Array.prototype.join. -/
def jsJoin (sep : String) : List String → String
  | [] => ""
  | [x] => x
  | x :: xs => x ++ sep ++ jsJoin sep xs

/-- The aggregate error message thrown when no parser handled the data:
the captured per-parser errors joined by newline-indent, then the full
list of registered parser names. -/
def noParserMsg (errs : List String) (parsers : List FormatParser) : String :=
  "No parser could handle the xcresult format. Tried parsers in order:\n  " ++
    jsJoin "\n  " errs ++ "\n" ++
    "Available parsers: " ++ jsJoin ", " (parsers.map (fun p => p.name))

/-- The iteration inside ParserRegistry.parse: for each parser in order,
a throw from canParse or from parse is captured into the error list and
iteration continues; a parser whose canParse is falsy is skipped without
recording an error; the first successful parse returns.  When the
candidate list is exhausted the aggregate error is thrown, naming every
registered parser. -/
def registryParseGo (bundlePath : String) (data : JSValue)
    (allParsers : List FormatParser) :
    List FormatParser → List String → Except String Report
  | [], errs => .error (noParserMsg errs allParsers)
  | p :: rest, errs =>
      match p.canParse data with
      | .error e =>
          registryParseGo bundlePath data allParsers rest (errs ++ [parserFailedMsg p e])
      | .ok v =>
          if truthy v then
            match p.parse bundlePath data with
            | .ok r => .ok r
            | .error e =>
                registryParseGo bundlePath data allParsers rest
                  (errs ++ [parserFailedMsg p e])
          else registryParseGo bundlePath data allParsers rest errs

/-- ParserRegistry.parse (src/formats/registry.ts lines 30-53). -/
def ParserRegistry.parse (parsers : List FormatParser) (bundlePath : String)
    (data : JSValue) : Except String Report :=
  registryParseGo bundlePath data parsers parsers []

/-! ## Recognition predicates of the registered parsers

Translated expression by expression.  The predicates built from a bare
logical and return the left operand itself when it is falsy (which is
how JS evaluates a && b), so their runtime result is not always a
boolean; the ones wrapped in a double negation coerce to a boolean. -/

/-- LegacyParser.canParse (src/formats/legacy-parser.ts lines 11-14):
data?.issues?.testableSummaries?._values and then
Array.isArray(data.issues.testableSummaries._values). -/
def LegacyParser.canParse (data : JSValue) : Except String JSValue := do
  let v := optChain3 data "issues" "testableSummaries" "_values"
  if truthy v then
    let a ← getField data "issues"
    let b ← getField a "testableSummaries"
    let c ← getField b "_values"
    pure (.bool (isArray c))
  else
    pure v

/-- Xcode16Parser.canParse (src/formats/registry.ts lines 76-79):
data?.testNodes and then Array.isArray(data.testNodes). -/
def Xcode16Parser.canParse (data : JSValue) : Except String JSValue := do
  let v := optChain data "testNodes"
  if truthy v then
    let w ← getField data "testNodes"
    pure (.bool (isArray w))
  else
    pure v

/-- Xcode15LegacyParser.canParse (src/formats/xcode15-legacy-parser.ts):
data?.actions?._values and then Array.isArray(data.actions._values). -/
def Xcode15LegacyParser.canParse (data : JSValue) : Except String JSValue := do
  let v := optChain2 data "actions" "_values"
  if truthy v then
    let a ← getField data "actions"
    let b ← getField a "_values"
    pure (.bool (isArray b))
  else
    pure v

/-- LegacyFormatParser.canParse (legacy-format-parser revision): the
same probe wrapped in a double negation, so the result is a genuine
boolean. -/
def LegacyFormatParser.canParse (data : JSValue) : Except String JSValue := do
  let v := optChain3 data "issues" "testableSummaries" "_values"
  if truthy v then
    let a ← getField data "issues"
    let b ← getField a "testableSummaries"
    let c ← getField b "_values"
    pure (.bool (isArray c))
  else
    pure (.bool false)

/-- Xcode15FormatParser.canParse: double-negated actions._values probe. -/
def Xcode15FormatParser.canParse (data : JSValue) : Except String JSValue := do
  let v := optChain2 data "actions" "_values"
  if truthy v then
    let a ← getField data "actions"
    let b ← getField a "_values"
    pure (.bool (isArray b))
  else
    pure (.bool false)

/-- Xcode16FormatParser.canParse: double-negated conjunction of the
devicesAndConfigurations array probe and the numeric test-count
probes. -/
def Xcode16FormatParser.canParse (data : JSValue) : Except String JSValue := do
  let v := optChain data "devicesAndConfigurations"
  if truthy v then
    let w ← getField data "devicesAndConfigurations"
    if isArray w then
      pure (.bool (isNumber (optChain data "passedTests") &&
        isNumber (optChain data "failedTests")))
    else
      pure (.bool false)
  else
    pure (.bool false)

/-! ## Legacy wrapped-array variant (class LegacyFormatParser in
src/formats/legacy-parser.ts, lines 129-241) -/

/-- LegacyFormatParser.mapStatus: the three known tokens map to
themselves, every other value maps to Failure. -/
def LegacyFormatParser.mapStatus (status : JSValue) : String :=
  if jsStrictEqStr status "Success" then "Success"
  else if jsStrictEqStr status "Failure" then "Failure"
  else if jsStrictEqStr status "Skipped" then "Skipped"
  else "Failure"

/-- LegacyFormatParser.extractTestResult (lines 208-227): container
nodes (non-empty subtests or children) yield none; a leaf yields a
TestResult whose failureMessage is the static string Test failed
exactly when the raw testStatus is the string Failure (the conditional
spread in the source includes the field only for a truthy message). -/
def LegacyFormatParser.extractTestResult (test : JSValue) : Option TestResult :=
  if truthy (jsOr (optChain3 test "subtests" "_values" "length")
      (optChain3 test "children" "_values" "length")) then
    none
  else
    let name := jsOr (optChain2 test "identifier" "_value") (.str "Unknown Test")
    let status := jsOr (optChain2 test "testStatus" "_value") (.str "Unknown")
    let durationRaw := optChain2 test "duration" "_value"
    let duration : JSValue := if isNumber durationRaw then durationRaw else .num 0
    let failureMessage : Option JSValue :=
      if jsStrictEqStr status "Failure" then some (.str "Test failed") else none
    some { name := name, status := .str (LegacyFormatParser.mapStatus status),
           duration := duration, failureMessage := failureMessage }

/-- The body of LegacyFormatParser.collectTests (lines 190-206), with
the recursive traversal of the child arrays abstracted as next: record
the current node when it is a leaf, then walk subtests._values and
children._values (forEach throws on a truthy non-array).  The shared
results array of the source is the returned list. -/
def LegacyFormatParser.collectNode
    (next : List JSValue → Except String (List TestResult)) (node : JSValue) :
    Except String (List TestResult) := do
  let here := match LegacyFormatParser.extractTestResult node with
    | some r => [r]
    | none => []
  let sv := optChain2 node "subtests" "_values"
  let fromSubtests ←
    if truthy sv then
      match sv with
      | .arr xs => next xs
      | _ => .error "TypeError: forEach is not a function"
    else pure []
  let cv := optChain2 node "children" "_values"
  let fromChildren ←
    if truthy cv then
      match cv with
      | .arr xs => next xs
      | _ => .error "TypeError: forEach is not a function"
    else pure []
  pure (here ++ fromSubtests ++ fromChildren)

/-- Sequential traversal of a list of sibling nodes, one fuel level. -/
def LegacyFormatParser.collectSiblings
    (next : List JSValue → Except String (List TestResult)) :
    List JSValue → Except String (List TestResult)
  | [] => .ok []
  | x :: xs => do
      let a ← LegacyFormatParser.collectNode next x
      let b ← LegacyFormatParser.collectSiblings next xs
      pure (a ++ b)

/-- The recursive traversal, staged by fuel (structural on the depth
bound so the definition computes): each level processes every node of
the current sibling list via collectNode, descending into child arrays
with one fuel level less. -/
def LegacyFormatParser.collectTestsList :
    ℕ → List JSValue → Except String (List TestResult)
  | 0 => fun _ => .error "RangeError: maximum call stack size exceeded"
  | fuel + 1 => LegacyFormatParser.collectSiblings (LegacyFormatParser.collectTestsList fuel)

/-- LegacyFormatParser.collectTests on a single node. -/
def LegacyFormatParser.collectTests (fuel : ℕ) (node : JSValue) :
    Except String (List TestResult) :=
  LegacyFormatParser.collectNode (LegacyFormatParser.collectTestsList fuel) node

/-- LegacyFormatParser.parseSuite (lines 166-188): collect all tests,
bucket them by strict comparison of status against Failure and Success,
sum the durations. -/
def LegacyFormatParser.parseSuite (fuel : ℕ) (summary : JSValue) :
    Except String SuiteResult := do
  let suiteName := jsOr (optChain2 summary "name" "_value") (.str "Unknown Suite")
  let tv := optChain2 summary "tests" "_values"
  let allTests ←
    if truthy tv then
      match tv with
      | .arr xs => LegacyFormatParser.collectTestsList fuel xs
      | _ => .error "TypeError: forEach is not a function"
    else pure []
  let failed := allTests.filter (fun t => jsStrictEqStr t.status "Failure")
  let passed := allTests.filter (fun t => jsStrictEqStr t.status "Success")
  let duration := allTests.foldl (fun sum t => jsAdd sum t.duration) (.num 0)
  pure { suiteName := suiteName, duration := duration, failed := failed,
         passed := passed }

/-- Suites of consecutive testable summaries. -/
def LegacyFormatParser.parseSuiteList (fuel : ℕ) :
    List JSValue → Except String (List SuiteResult)
  | [] => .ok []
  | x :: xs => do
      let s ← LegacyFormatParser.parseSuite fuel x
      let rest ← LegacyFormatParser.parseSuiteList fuel xs
      pure (s :: rest)

/-- LegacyFormatParser.parse (lines 141-164): iterate the testable
summaries, then compute totalSuites as the length of the suites array,
totalTests as the summed bucket sizes and totalDuration as the summed
suite durations. -/
def LegacyFormatParser.parse (fuel : ℕ) (data : JSValue) : Except String Report := do
  let issues ← getField data "issues"
  let ts := jsOr (optChain2 issues "testableSummaries" "_values") (.arr [])
  let summaries ← jsSpreadList ts
  let suites ← LegacyFormatParser.parseSuiteList fuel summaries
  let totalTests : ℕ :=
    suites.foldl (fun s su => s + su.failed.length + su.passed.length) 0
  let totalDuration := suites.foldl (fun s su => jsAdd s su.duration) (.num 0)
  pure { totalSuites := suites.length, totalTests := .num totalTests,
         totalDuration := totalDuration, suites := suites }

/-! ## Newest nested-tree variant, registry revision (class Xcode16Parser
in src/formats/registry.ts, lines 72-175) -/

/-- Xcode16Parser.mapStatus: Passed, Failed and Skipped map to the
canonical tokens; every other value maps to Failure. -/
def Xcode16Parser.mapStatus (result : JSValue) : String :=
  if jsStrictEqStr result "Passed" then "Success"
  else if jsStrictEqStr result "Failed" then "Failure"
  else if jsStrictEqStr result "Skipped" then "Skipped"
  else "Failure"

/-- Xcode16Parser.getFailureMessage: the generic template literal built
from the node name. -/
def Xcode16Parser.getFailureMessage (node : JSValue) : Except String JSValue := do
  let n ← getField node "name"
  pure (.str ("Test \x27" ++ jsToStr n ++ "\x27 failed"))

/-- The body of Xcode16Parser.extractTestCases (lines 131-155), with
the recursive walk of the children abstracted as next: a Test Case node
contributes one TestResult (duration via nullish coalescing, status via
mapStatus, a generic failure message exactly when the raw result is the
string Failed), then children are walked in order. -/
def Xcode16Parser.testCasesFromNode
    (next : List JSValue → Except String (List TestResult)) (node : JSValue) :
    Except String (List TestResult) := do
  let nt ← getField node "nodeType"
  let here ←
    if jsStrictEqStr nt "Test Case" then do
      let dRaw ← getField node "durationInSeconds"
      let duration := jsNullish dRaw (.num 0)
      let res ← getField node "result"
      let status := Xcode16Parser.mapStatus res
      let nameV ← getField node "name"
      let fm ←
        if jsStrictEqStr res "Failed" then do
          let m ← Xcode16Parser.getFailureMessage node
          pure (some m)
        else pure (none : Option JSValue)
      pure [({ name := nameV, status := .str status, duration := duration,
               failureMessage := fm } : TestResult)]
    else pure []
  let ch ← getField node "children"
  let fromChildren ←
    if truthy ch then do
      let xs ← jsSpreadList ch
      next xs
    else pure []
  pure (here ++ fromChildren)

/-- Sibling test nodes, walked in order at one fuel level. -/
def Xcode16Parser.testCasesFromNodes
    (next : List JSValue → Except String (List TestResult)) :
    List JSValue → Except String (List TestResult)
  | [] => .ok []
  | x :: xs => do
      let a ← Xcode16Parser.testCasesFromNode next x
      let b ← Xcode16Parser.testCasesFromNodes next xs
      pure (a ++ b)

/-- The staged recursive walk collecting test cases. -/
def Xcode16Parser.extractTestCasesList :
    ℕ → List JSValue → Except String (List TestResult)
  | 0 => fun _ => .error "RangeError: maximum call stack size exceeded"
  | fuel + 1 => Xcode16Parser.testCasesFromNodes (Xcode16Parser.extractTestCasesList fuel)

/-- Xcode16Parser.extractTestCases on a single node. -/
def Xcode16Parser.extractTestCases (fuel : ℕ) (node : JSValue) :
    Except String (List TestResult) :=
  Xcode16Parser.testCasesFromNode (Xcode16Parser.extractTestCasesList fuel) node

/-- The body of Xcode16Parser.createSuitesFromNode (lines 105-129),
with the recursive descent into container children abstracted as next:
a Test Suite node becomes one SuiteResult whose buckets are the
Success/Failure filters of its descendant test cases (fuel bounds that
inner walk); any other node with children is a transparent container. -/
def Xcode16Parser.suitesFromNode (fuel : ℕ)
    (next : List JSValue → Except String (List SuiteResult)) (node : JSValue) :
    Except String (List SuiteResult) := do
  let nt ← getField node "nodeType"
  if jsStrictEqStr nt "Test Suite" then do
    let allTests ← Xcode16Parser.extractTestCases fuel node
    let passed := allTests.filter (fun t => jsStrictEqStr t.status "Success")
    let failed := allTests.filter (fun t => jsStrictEqStr t.status "Failure")
    let duration := allTests.foldl (fun s t => jsAdd s t.duration) (.num 0)
    let nameV ← getField node "name"
    pure [({ suiteName := nameV, duration := duration, failed := failed,
             passed := passed } : SuiteResult)]
  else do
    let ch ← getField node "children"
    if truthy ch then do
      let xs ← jsSpreadList ch
      next xs
    else pure []

/-- Sibling container nodes, walked in order at one fuel level. -/
def Xcode16Parser.suitesFromNodes (fuel : ℕ)
    (next : List JSValue → Except String (List SuiteResult)) :
    List JSValue → Except String (List SuiteResult)
  | [] => .ok []
  | x :: xs => do
      let a ← Xcode16Parser.suitesFromNode fuel next x
      let b ← Xcode16Parser.suitesFromNodes fuel next xs
      pure (a ++ b)

/-- The staged recursive walk collecting suites. -/
def Xcode16Parser.createSuitesFromNodeList :
    ℕ → List JSValue → Except String (List SuiteResult)
  | 0 => fun _ => .error "RangeError: maximum call stack size exceeded"
  | fuel + 1 =>
      Xcode16Parser.suitesFromNodes (fuel + 1) (Xcode16Parser.createSuitesFromNodeList fuel)

/-- Xcode16Parser.createSuitesFromNode on a single node. -/
def Xcode16Parser.createSuitesFromNode (fuel : ℕ) (node : JSValue) :
    Except String (List SuiteResult) :=
  Xcode16Parser.suitesFromNode fuel (Xcode16Parser.createSuitesFromNodeList fuel) node

/-- Xcode16Parser.parse (lines 81-103): walk every root test node, then
totalSuites is the length of the collected suites array, totalTests the
summed bucket sizes, totalDuration the sum of the suite durations. -/
def Xcode16Parser.parse (fuel : ℕ) (data : JSValue) : Except String Report := do
  let tns ← getField data "testNodes"
  let xs ← jsSpreadList tns
  let suites ← Xcode16Parser.createSuitesFromNodeList fuel xs
  let totalTests : ℕ :=
    suites.foldl (fun s su => s + su.failed.length + su.passed.length) 0
  let totalDuration := suites.foldl (fun s su => jsAdd s su.duration) (.num 0)
  pure { totalSuites := suites.length, totalTests := .num totalTests,
         totalDuration := totalDuration, suites := suites }

/-! ## Newest nested-tree variant, core revision (class
Xcode16FormatParser in src/formats/xcode16-format-parser.ts) -/

/-- SameValueZero, the key equality of JS Map: primitives compare by
value (with NaN equal to itself).  Objects and arrays compare by
reference in JS; the keys stored and looked up here come from two
separately parsed JSON trees, so non-primitive keys never alias and
therefore never compare equal. -/
def sameValueZero : JSValue → JSValue → Bool
  | .null, .null => true
  | .undefined, .undefined => true
  | .nan, .nan => true
  | .bool a, .bool b => a == b
  | .num a, .num b => a == b
  | .str a, .str b => a == b
  | _, _ => false

/-- Map.prototype.set: overwrite the existing binding in place or append. -/
def mapSet (m : List (JSValue × JSValue)) (k v : JSValue) :
    List (JSValue × JSValue) :=
  match m with
  | [] => [(k, v)]
  | (k', v') :: rest =>
      if sameValueZero k' k then (k', v) :: rest
      else (k', v') :: mapSet rest k v

/-- Map.prototype.get, undefined when the key is absent. -/
def mapGet (m : List (JSValue × JSValue)) (k : JSValue) : JSValue :=
  match m.find? (fun e => sameValueZero e.1 k) with
  | some e => e.2
  | none => .undefined

/-- Xcode16FormatParser.mapStatus: same token table as
Xcode16Parser.mapStatus. -/
def Xcode16FormatParser.mapStatus (result : JSValue) : String :=
  if jsStrictEqStr result "Passed" then "Success"
  else if jsStrictEqStr result "Failed" then "Failure"
  else if jsStrictEqStr result "Skipped" then "Skipped"
  else "Failure"

/-- Xcode16FormatParser.calculateDuration: finishTime - startTime when
both are truthy, else 0. -/
def Xcode16FormatParser.calculateDuration (startTime finishTime : JSValue) : JSValue :=
  if truthy startTime && truthy finishTime then jsSub finishTime startTime
  else .num 0

/-- The body of Xcode16FormatParser.extractTestCases, with the walk of
the children abstracted as next: like the registry revision, but the
failure message is looked up in the failure map by nodeIdentifier
(falling back to name), with the generic template as the default, and
the field is added through a conditional spread. -/
def Xcode16FormatParser.testCasesFromNode
    (failureMap : List (JSValue × JSValue))
    (next : List JSValue → Except String (List TestResult)) (node : JSValue) :
    Except String (List TestResult) := do
  let nt ← getField node "nodeType"
  let here ←
    if jsStrictEqStr nt "Test Case" then do
      let dRaw ← getField node "durationInSeconds"
      let duration := jsNullish dRaw (.num 0)
      let res ← getField node "result"
      let status := Xcode16FormatParser.mapStatus res
      let nid ← getField node "nodeIdentifier"
      let nameV ← getField node "name"
      let identifier := jsOr nid nameV
      let fm : Option JSValue :=
        if status == "Failure" then
          let failure := mapGet failureMap identifier
          some (jsOr (optChain failure "failureText")
            (.str ("Test \x27" ++ jsToStr nameV ++ "\x27 failed")))
        else none
      let fmField := match fm with
        | some m => if truthy m then some m else none
        | none => none
      pure [({ name := jsOr nameV identifier, status := .str status,
               duration := duration, failureMessage := fmField } : TestResult)]
    else pure []
  let ch ← getField node "children"
  let fromChildren ←
    if truthy ch then do
      let xs ← jsSpreadList ch
      next xs
    else pure []
  pure (here ++ fromChildren)

/-- Sibling test nodes, walked in order at one fuel level. -/
def Xcode16FormatParser.testCasesFromNodes
    (failureMap : List (JSValue × JSValue))
    (next : List JSValue → Except String (List TestResult)) :
    List JSValue → Except String (List TestResult)
  | [] => .ok []
  | x :: xs => do
      let a ← Xcode16FormatParser.testCasesFromNode failureMap next x
      let b ← Xcode16FormatParser.testCasesFromNodes failureMap next xs
      pure (a ++ b)

/-- The staged recursive walk collecting test cases. -/
def Xcode16FormatParser.extractTestCasesList
    (failureMap : List (JSValue × JSValue)) :
    ℕ → List JSValue → Except String (List TestResult)
  | 0 => fun _ => .error "RangeError: maximum call stack size exceeded"
  | fuel + 1 =>
      Xcode16FormatParser.testCasesFromNodes failureMap
        (Xcode16FormatParser.extractTestCasesList failureMap fuel)

/-- Xcode16FormatParser.extractTestCases on a single node. -/
def Xcode16FormatParser.extractTestCases (fuel : ℕ)
    (failureMap : List (JSValue × JSValue)) (node : JSValue) :
    Except String (List TestResult) :=
  Xcode16FormatParser.testCasesFromNode failureMap
    (Xcode16FormatParser.extractTestCasesList failureMap fuel) node

/-- The body of Xcode16FormatParser.createSuitesFromNode, with the
descent into container children abstracted as next: a Test Suite node
becomes one SuiteResult with filtered buckets and the name defaulted to
Unknown Suite; other nodes with children are containers. -/
def Xcode16FormatParser.suitesFromNode (fuel : ℕ)
    (failureMap : List (JSValue × JSValue))
    (next : List JSValue → Except String (List SuiteResult)) (node : JSValue) :
    Except String (List SuiteResult) := do
  let nt ← getField node "nodeType"
  if jsStrictEqStr nt "Test Suite" then do
    let allTests ← Xcode16FormatParser.extractTestCases fuel failureMap node
    let passed := allTests.filter (fun t => jsStrictEqStr t.status "Success")
    let failed := allTests.filter (fun t => jsStrictEqStr t.status "Failure")
    let duration := allTests.foldl (fun s t => jsAdd s t.duration) (.num 0)
    let nameV ← getField node "name"
    pure [({ suiteName := jsOr nameV (.str "Unknown Suite"), duration := duration,
             failed := failed, passed := passed } : SuiteResult)]
  else do
    let ch ← getField node "children"
    if truthy ch then do
      let xs ← jsSpreadList ch
      next xs
    else pure []

/-- Sibling container nodes, walked in order at one fuel level. -/
def Xcode16FormatParser.suitesFromNodes (fuel : ℕ)
    (failureMap : List (JSValue × JSValue))
    (next : List JSValue → Except String (List SuiteResult)) :
    List JSValue → Except String (List SuiteResult)
  | [] => .ok []
  | x :: xs => do
      let a ← Xcode16FormatParser.suitesFromNode fuel failureMap next x
      let b ← Xcode16FormatParser.suitesFromNodes fuel failureMap next xs
      pure (a ++ b)

/-- The staged recursive walk collecting suites. -/
def Xcode16FormatParser.createSuitesFromNodeList
    (failureMap : List (JSValue × JSValue)) :
    ℕ → List JSValue → Except String (List SuiteResult)
  | 0 => fun _ => .error "RangeError: maximum call stack size exceeded"
  | fuel + 1 =>
      Xcode16FormatParser.suitesFromNodes (fuel + 1) failureMap
        (Xcode16FormatParser.createSuitesFromNodeList failureMap fuel)

/-- Xcode16FormatParser.createSuitesFromNode on a single node. -/
def Xcode16FormatParser.createSuitesFromNode (fuel : ℕ)
    (failureMap : List (JSValue × JSValue)) (node : JSValue) :
    Except String (List SuiteResult) :=
  Xcode16FormatParser.suitesFromNode fuel failureMap
    (Xcode16FormatParser.createSuitesFromNodeList failureMap fuel) node

/-- The forEach building the failure map: each failure is keyed by
testIdentifierString, falling back to testIdentifier (short-circuit, so
the fallback property is read only when the first is falsy). -/
def Xcode16FormatParser.buildFailureMap (failures : List JSValue) :
    Except String (List (JSValue × JSValue)) :=
  failures.foldlM
    (fun m f => do
      let idStr ← getField f "testIdentifierString"
      let k ← if truthy idStr then pure idStr else getField f "testIdentifier"
      pure (mapSet m k f))
    []

/-- Xcode16FormatParser.parseTestNodes: build the failure map from the
testFailures array (forEach throws on a non-array), then walk every
root node. -/
def Xcode16FormatParser.parseTestNodes (fuel : ℕ) (testNodes testFailures : JSValue) :
    Except String (List SuiteResult) := do
  let failuresList ←
    match testFailures with
    | .arr xs => Except.ok xs
    | _ => Except.error "TypeError: testFailures.forEach is not a function"
  let failureMap ← Xcode16FormatParser.buildFailureMap failuresList
  let nodes ← jsSpreadList testNodes
  Xcode16FormatParser.createSuitesFromNodeList failureMap fuel nodes

/-- Xcode16FormatParser.parse: the secondary tests payload that the
source fetches through the external tool is injected as testDetails.
Totals come from the summary record; totalSuites is the length of the
suites array produced by parseTestNodes. -/
def Xcode16FormatParser.parse (fuel : ℕ) (testDetails : JSValue) (data : JSValue) :
    Except String Report := do
  let pt ← getField data "passedTests"
  let ft ← getField data "failedTests"
  let st ← getField data "skippedTests"
  let totalTests := jsAdd (jsAdd (jsOr pt (.num 0)) (jsOr ft (.num 0)))
    (jsOr st (.num 0))
  let sT ← getField data "startTime"
  let fT ← getField data "finishTime"
  let totalDuration := Xcode16FormatParser.calculateDuration sT fT
  let tn ← getField testDetails "testNodes"
  let tf ← getField data "testFailures"
  let suites ← Xcode16FormatParser.parseTestNodes fuel (jsOr tn (.arr []))
    (jsOr tf (.arr []))
  pure { totalSuites := suites.length, totalTests := totalTests,
         totalDuration := totalDuration, suites := suites }

/-! ## Intermediate object-graph variant (src/parser.ts)

The per-test detail fetch getTestDetails(bundlePath, id) is injected as
a function from the reference id to an Except result: an error models a
thrown fetch failure, a returned null (or other falsy payload) models
the collaborator convention of returning null instead of throwing. -/

/-- validateAndLog (src/validator.ts): advisory schema validation that
only logs warnings and always returns the payload unchanged. -/
def validateAndLog (data : JSValue) : JSValue := data

/-- Truthiness of the failureMessage local variable, which is undefined
before first assignment (an Option none). -/
def truthyOpt : Option JSValue → Bool
  | some v => truthy v
  | none => false

/-- The includes(failed) test on a title value: substring test on a
string, SameValueZero element test on an array, TypeError otherwise. -/
def includesFailed : JSValue → Except String Bool
  | .str s => .ok (strContainsB s "failed")
  | .arr xs => .ok (xs.any (fun v => jsStrictEqStr v "failed"))
  | _ => .error "TypeError: includes is not a function"

/-- The for..of scan over activitySummaries: activity.title is a plain
property access, so a nullish activity entry makes the scan throw a
TypeError (swallowed by the outer catch, dropping the message), while
_value is optional-chained; the first activity whose title._value is
truthy and includes the substring failed supplies the message; a truthy
non-string title makes the includes call throw. -/
def XCParser.scanActivities : List JSValue → Except String (Option JSValue)
  | [] => .ok none
  | a :: rest => do
      let title ← getField a "title"
      let t := optChain title "_value"
      if truthy t then do
        let hit ← includesFailed t
        if hit then pure (some t) else XCParser.scanActivities rest
      else XCParser.scanActivities rest

/-- The failure-message resolution block of extractTestResult
(src/parser.ts lines 71-107), on the fetched detail payload: first the
failureSummaries list (its mere non-emptiness short-circuits the rest,
with Test failed as the default when its first entry has no truthy
message), then the concatenation of summaries and testFailureSummaries,
then the activity scan, then the literal Test failed. -/
def XCParser.resolveFailureMessage (validated : JSValue) :
    Except String (Option JSValue) := do
  let failureSummaries := jsOr (optChain2 validated "failureSummaries" "_values")
    (.arr [])
  let fm1 : Option JSValue ←
    if jsGtZero (optChain failureSummaries "length") then do
      let firstFailure := jsIndex0 failureSummaries
      let msg ← getField firstFailure "message"
      pure (some (jsOr (optChain msg "_value") (.str "Test failed")))
    else pure none
  let fm2 : Option JSValue ←
    if !truthyOpt fm1 then do
      let summaries := jsOr (optChain2 validated "summaries" "_values") (.arr [])
      let testFailureSummaries :=
        jsOr (optChain2 validated "testFailureSummaries" "_values") (.arr [])
      let s1 ← jsSpreadList summaries
      let s2 ← jsSpreadList testFailureSummaries
      match s1 ++ s2 with
      | [] => pure fm1
      | firstSummary :: _ => do
          let msg ← getField firstSummary "message"
          let mv := optChain msg "_value"
          if truthy mv then pure (some mv)
          else do
            let title ← getField firstSummary "title"
            pure (some (jsOr (optChain title "_value") (.str "Test failed")))
    else pure fm1
  let av := optChain2 validated "activitySummaries" "_values"
  let fm3 : Option JSValue ←
    if !truthyOpt fm2 && truthy av then do
      let items ← jsSpreadList av
      let found ← XCParser.scanActivities items
      pure (match found with
        | some t => some t
        | none => fm2)
    else pure fm2
  if !truthyOpt fm3 then pure (some (.str "Test failed")) else pure fm3

/-- extractTestResult (src/parser.ts lines 50-122): container nodes
yield none; for a failing leaf with a truthy summary-reference id the
detail payload is fetched and the message resolved, with the whole
fetch-and-resolve block wrapped in a catch that swallows any error and
leaves the message unset; the test is always emitted, the raw status
string kept as-is, the message field added only when truthy. -/
def XCParser.extractTestResult (fetchDetails : JSValue → Except String JSValue)
    (test : JSValue) : Option TestResult :=
  if truthy (jsOr (optChain3 test "subtests" "_values" "length")
      (optChain3 test "children" "_values" "length")) then
    none
  else
    let name := jsOr (optChain2 test "identifier" "_value") (.str "Unknown Test")
    let status := jsOr (optChain2 test "testStatus" "_value") (.str "Unknown")
    let durationRaw := optChain2 test "duration" "_value"
    let duration : JSValue := if isNumber durationRaw then durationRaw else .num 0
    let idv := optChain3 test "summaryRef" "id" "_value"
    let fm : Option JSValue :=
      if jsStrictEqStr status "Failure" && truthy idv then
        match (do
            let details ← fetchDetails idv
            if truthy details then
              XCParser.resolveFailureMessage (validateAndLog details)
            else
              pure none : Except String (Option JSValue)) with
        | .ok m => m
        | .error _ => none
      else none
    let fmField := match fm with
      | some m => if truthy m then some m else none
      | none => none
    some { name := name, status := status, duration := duration,
           failureMessage := fmField }

/-- The body of collectTests (src/parser.ts lines 124-149), with the
traversal of the child arrays abstracted as next: the current node,
then subtests._values and children._values; the source awaits the
mapped promises sequentially in traversal order (map throws on a truthy
non-array). -/
def XCParser.collectNode (fetchDetails : JSValue → Except String JSValue)
    (next : List JSValue → Except String (List TestResult)) (node : JSValue) :
    Except String (List TestResult) := do
  let here := match XCParser.extractTestResult fetchDetails node with
    | some r => [r]
    | none => []
  let sv := optChain2 node "subtests" "_values"
  let fromSubtests ←
    if truthy sv then
      match sv with
      | .arr xs => next xs
      | _ => .error "TypeError: map is not a function"
    else pure []
  let cv := optChain2 node "children" "_values"
  let fromChildren ←
    if truthy cv then
      match cv with
      | .arr xs => next xs
      | _ => .error "TypeError: map is not a function"
    else pure []
  pure (here ++ fromSubtests ++ fromChildren)

/-- Sibling nodes, walked in order at one fuel level. -/
def XCParser.collectSiblings (fetchDetails : JSValue → Except String JSValue)
    (next : List JSValue → Except String (List TestResult)) :
    List JSValue → Except String (List TestResult)
  | [] => .ok []
  | x :: xs => do
      let a ← XCParser.collectNode fetchDetails next x
      let b ← XCParser.collectSiblings fetchDetails next xs
      pure (a ++ b)

/-- The staged recursive traversal. -/
def XCParser.collectTestsList (fetchDetails : JSValue → Except String JSValue) :
    ℕ → List JSValue → Except String (List TestResult)
  | 0 => fun _ => .error "RangeError: maximum call stack size exceeded"
  | fuel + 1 =>
      XCParser.collectSiblings fetchDetails (XCParser.collectTestsList fetchDetails fuel)

/-- collectTests on a single node. -/
def XCParser.collectTests (fetchDetails : JSValue → Except String JSValue)
    (fuel : ℕ) (node : JSValue) : Except String (List TestResult) :=
  XCParser.collectNode fetchDetails (XCParser.collectTestsList fetchDetails fuel) node

/-- parseSuite (src/parser.ts lines 151-178): collect all tests of a
testable summary, bucket them by strict comparison against Failure and
Success, and sum the numeric durations. -/
def XCParser.parseSuite (fetchDetails : JSValue → Except String JSValue)
    (fuel : ℕ) (summary : JSValue) : Except String SuiteResult := do
  let suiteName := jsOr (optChain2 summary "name" "_value") (.str "Unknown Suite")
  let tv := optChain2 summary "tests" "_values"
  let allTests ←
    if truthy tv then
      match tv with
      | .arr xs => XCParser.collectTestsList fetchDetails fuel xs
      | _ => .error "TypeError: map is not a function"
    else pure []
  let failed := allTests.filter (fun t => jsStrictEqStr t.status "Failure")
  let passed := allTests.filter (fun t => jsStrictEqStr t.status "Success")
  let duration := allTests.foldl
    (fun s t => jsAdd s (if isNumber t.duration then t.duration else .num 0))
    (.num 0)
  pure { suiteName := suiteName, duration := duration, failed := failed,
         passed := passed }

/-! ## Derived definitions used in the statements -/

/-- A JS nullish value (null or undefined). -/
def isNullish : JSValue → Bool
  | .null => true
  | .undefined => true
  | _ => false

/-- The bucket invariant of a SuiteResult: the failed sequence holds only
tests whose status is the string Failure, the passed sequence only tests
whose status is the string Success. -/
def cleanSuite (su : SuiteResult) : Prop :=
  (∀ t ∈ su.failed, t.status = JSValue.str "Failure") ∧
  (∀ t ∈ su.passed, t.status = JSValue.str "Success")

/-- Substring containment: pat occurs inside s. -/
def StrContains (s pat : String) : Prop := pat.data <:+: s.data

/-- A parser that does not deliver a report for the given data: its
canParse throws, or its canParse returns a falsy value, or it accepts
the data and its parse throws. -/
def parserFails (bundlePath : String) (data : JSValue) (p : FormatParser) : Prop :=
  (∃ e, p.canParse data = .error e) ∨
  (∃ v, p.canParse data = .ok v ∧ truthy v = false) ∨
  (∃ v e, p.canParse data = .ok v ∧ truthy v = true ∧
    p.parse bundlePath data = .error e)

/-- The error messages ParserRegistry.parse captures while trying one
parser: one entry when canParse throws or when parse throws after a
truthy canParse, none otherwise. -/
def capturedErrs (bundlePath : String) (data : JSValue) (p : FormatParser) :
    List String :=
  match p.canParse data with
  | .error e => [parserFailedMsg p e]
  | .ok v =>
      if truthy v then
        match p.parse bundlePath data with
        | .error e => [parserFailedMsg p e]
        | .ok _ => []
      else []

/-- All captured error messages across a parser list, in trial order. -/
def allCapturedErrs (bundlePath : String) (data : JSValue) :
    List FormatParser → List String
  | [] => []
  | p :: ps => capturedErrs bundlePath data p ++ allCapturedErrs bundlePath data ps

/-- A title value that the activity scan accepts: a non-empty string
containing the substring failed. -/
def isFailedTitle : JSValue → Bool
  | .str s => s != "" && strContainsB s "failed"
  | _ => false

/-- Defined from the claim text of the amended failure-message priority
order, to be compared with the source translation
XCParser.resolveFailureMessage: (1) when the failureSummaries list is
non-empty, its first entry must supply the message (Test failed when
that entry has no truthy message) and the later steps are not
consulted; (2) otherwise, when the concatenation of the summaries list
and the testFailureSummaries list is non-empty, its first entry's
message or title (Test failed when neither is truthy); (3) otherwise
the first activitySummaries entry whose title contains the substring
failed; (4) otherwise the literal Test failed. -/
def specFailureMessage (fs ss tfs acts : List JSValue) : JSValue :=
  match fs with
  | firstFailure :: _ =>
      let m := optChain2 firstFailure "message" "_value"
      if truthy m then m else .str "Test failed"
  | [] =>
      match ss ++ tfs with
      | firstSummary :: _ =>
          let m := optChain2 firstSummary "message" "_value"
          let t := optChain2 firstSummary "title" "_value"
          if truthy m then m else if truthy t then t else .str "Test failed"
      | [] =>
          match acts.find? (fun a => isFailedTitle (optChain2 a "title" "_value")) with
          | some a => optChain2 a "title" "_value"
          | none => .str "Test failed"

/-- A detail payload carrying the four lists the message resolution
consults. -/
def detailsPayload (fs ss tfs acts : List JSValue) : JSValue :=
  .obj [("failureSummaries", .obj [("_values", .arr fs)]),
        ("summaries", .obj [("_values", .arr ss)]),
        ("testFailureSummaries", .obj [("_values", .arr tfs)]),
        ("activitySummaries", .obj [("_values", .arr acts)])]

/-! ## Concrete sample data for witnesses and counterexamples -/

def sampleReport : Report := ⟨0, .num 0, .num 0, []⟩

/-- Accepts everything, then throws while parsing. -/
def regParserA : FormatParser :=
  ⟨"alpha", 100, fun _ => .ok (.bool true), fun _ _ => .error "boom"⟩

/-- Accepts everything and succeeds. -/
def regParserB : FormatParser :=
  ⟨"beta", 90, fun _ => .ok (.bool true), fun _ _ => .ok sampleReport⟩

/-- Throws from canParse itself. -/
def regParserC : FormatParser :=
  ⟨"gamma", 100, fun _ => .error "probe exploded", fun _ _ => .ok sampleReport⟩

/-- Declines everything. -/
def regParserD : FormatParser :=
  ⟨"delta", 90, fun _ => .ok (.bool false), fun _ _ => .ok sampleReport⟩

/-- The legacy-shaped scenario input of the specification: one testable
summary named S with one passed test t1 of duration 0.1. -/
def legacyScenarioInput : JSValue :=
  .obj [("issues", .obj [("testableSummaries", .obj [("_values", .arr [
    .obj [("name", .obj [("_value", .str "S")]),
          ("tests", .obj [("_values", .arr [
            .obj [("identifier", .obj [("_value", .str "t1")]),
                  ("testStatus", .obj [("_value", .str "Success")]),
                  ("duration", .obj [("_value", .num (1/10))])]])])]])])])]

def legacyScenarioReport : Report :=
  ⟨1, .num 1, .num (1/10),
    [⟨.str "S", .num (1/10), [], [⟨.str "t1", .str "Success", .num (1/10), none⟩]⟩]⟩

/-- Nested-tree scenario input: a test plan containing one suite with a
passed and a failed test case. -/
def nestedScenarioInput : JSValue :=
  .obj [("testNodes", .arr [
    .obj [("nodeType", .str "Test Plan"), ("name", .str "Plan"), ("children", .arr [
      .obj [("nodeType", .str "Test Suite"), ("name", .str "Suite1"), ("children", .arr [
        .obj [("nodeType", .str "Test Case"), ("name", .str "tPass"),
              ("result", .str "Passed"), ("durationInSeconds", .num (1/10))],
        .obj [("nodeType", .str "Test Case"), ("name", .str "tFail"),
              ("result", .str "Failed"), ("durationInSeconds", .num (1/5))]])]])]])]

def nestedScenarioSuite : SuiteResult :=
  ⟨.str "Suite1", .num (3/10),
    [⟨.str "tFail", .str "Failure", .num (1/5), some (.str "Test \x27tFail\x27 failed")⟩],
    [⟨.str "tPass", .str "Success", .num (1/10), none⟩]⟩

def nestedScenarioReport : Report := ⟨1, .num 2, .num (3/10), [nestedScenarioSuite]⟩

/-- Xcode 16 core-revision summary record with one failure entry. -/
def x16fSummary : JSValue :=
  .obj [("devicesAndConfigurations", .arr []), ("passedTests", .num 1),
        ("failedTests", .num 1), ("skippedTests", .num 0),
        ("startTime", .num 10), ("finishTime", .num 12),
        ("testFailures", .arr [
          .obj [("testIdentifierString", .str "id1"), ("failureText", .str "assert bad")]])]

/-- The matching secondary tests payload. -/
def x16fDetails : JSValue :=
  .obj [("testNodes", .arr [
    .obj [("nodeType", .str "Test Suite"), ("name", .str "S16"), ("children", .arr [
      .obj [("nodeType", .str "Test Case"), ("name", .str "tc1"),
            ("nodeIdentifier", .str "id1"), ("result", .str "Failed"),
            ("durationInSeconds", .num 2)],
      .obj [("nodeType", .str "Test Case"), ("name", .str "tc2"),
            ("result", .str "Passed"), ("durationInSeconds", .num 1)]])]])]

def x16fScenarioReport : Report :=
  ⟨1, .num 2, .num 2,
    [⟨.str "S16", .num 3,
      [⟨.str "tc1", .str "Failure", .num 2, some (.str "assert bad")⟩],
      [⟨.str "tc2", .str "Success", .num 1, none⟩]⟩]⟩

/-- A testable summary with a single failing test and no summary
reference. -/
def xcSummaryScenario : JSValue :=
  .obj [("name", .obj [("_value", .str "SX")]),
        ("tests", .obj [("_values", .arr [
          .obj [("identifier", .obj [("_value", .str "tf")]),
                ("testStatus", .obj [("_value", .str "Failure")]),
                ("duration", .obj [("_value", .num 1)])]])])]

def xcScenarioSuite : SuiteResult :=
  ⟨.str "SX", .num 1, [⟨.str "tf", .str "Failure", .num 1, none⟩], []⟩

/-- A failing leaf with a summary-reference id. -/
def xcFailingTest : JSValue :=
  .obj [("identifier", .obj [("_value", .str "t")]),
        ("testStatus", .obj [("_value", .str "Failure")]),
        ("summaryRef", .obj [("id", .obj [("_value", .str "ref1")])])]

/-- A detail fetch that throws. -/
def xcFetchErr : JSValue → Except String JSValue := fun _ => .error "io"

/-- A detail fetch whose collaborator returns null. -/
def xcFetchNull : JSValue → Except String JSValue := fun _ => .ok .null

/-- A detail payload whose failureSummaries list is non-empty but whose
first (and only) entry carries no message, while the summaries list's
first entry carries the message boom. -/
def c3CounterDetails : JSValue :=
  .obj [("failureSummaries", .obj [("_values", .arr [.obj []])]),
        ("summaries", .obj [("_values", .arr [
          .obj [("message", .obj [("_value", .str "boom")])]])])]

def c3CounterFetch : JSValue → Except String JSValue := fun _ => .ok c3CounterDetails

/-- The summaries list used by the C3 witness. -/
def c3SummariesList : List JSValue :=
  [.obj [("message", .obj [("_value", .str "boom")])]]

def c3WitnessFetch : JSValue → Except String JSValue :=
  fun _ => .ok (detailsPayload [] c3SummariesList [] [])

/-- A leaf with an unrecognized status token. -/
def c8BogusTest : JSValue := .obj [("testStatus", .obj [("_value", .str "Bogus")])]

/-- A leaf whose raw status is exactly Failure. -/
def c8FailureTest : JSValue := .obj [("testStatus", .obj [("_value", .str "Failure")])]

/-- Legacy input whose single passed test reports duration -1. -/
def c9NegInput : JSValue :=
  .obj [("issues", .obj [("testableSummaries", .obj [("_values", .arr [
    .obj [("name", .obj [("_value", .str "S")]),
          ("tests", .obj [("_values", .arr [
            .obj [("identifier", .obj [("_value", .str "t")]),
                  ("testStatus", .obj [("_value", .str "Success")]),
                  ("duration", .obj [("_value", .num (-1))])]])])]])])])]

def c9NegReport : Report :=
  ⟨1, .num 1, .num (-1),
    [⟨.str "S", .num (-1), [], [⟨.str "t", .str "Success", .num (-1), none⟩]⟩]⟩

/-- A leaf with a positive duration. -/
def c9PosTest : JSValue :=
  .obj [("identifier", .obj [("_value", .str "t")]),
        ("testStatus", .obj [("_value", .str "Success")]),
        ("duration", .obj [("_value", .num (1/10))])]

def c9PosResult : TestResult := ⟨.str "t", .str "Success", .num (1/10), none⟩

/-! ## Helper lemmas -/

theorem exBind_ok {α β : Type} {x : Except String α} {f : α → Except String β} {b : β}
    (h : (x >>= f) = .ok b) : ∃ a, x = .ok a ∧ f a = .ok b := by
  cases x
  · exact absurd h (by simp [Bind.bind, Except.bind])
  · exact ⟨_, rfl, by simpa [Bind.bind, Except.bind] using h⟩

theorem jsStrictEqStr_eq {v : JSValue} {s : String} (h : jsStrictEqStr v s = true) :
    v = JSValue.str s := by
  cases v <;> simp_all [jsStrictEqStr]

theorem cleanSuite_filters (nm dur : JSValue) (tests : List TestResult) :
    cleanSuite { suiteName := nm, duration := dur,
                 failed := tests.filter (fun t => jsStrictEqStr t.status "Failure"),
                 passed := tests.filter (fun t => jsStrictEqStr t.status "Success") } :=
  ⟨fun _ ht => jsStrictEqStr_eq (List.mem_filter.mp ht).2,
   fun _ ht => jsStrictEqStr_eq (List.mem_filter.mp ht).2⟩

/-! ## C6: totalSuites equals the number of suites -/

/-- C6: for every Report produced by a format variant on any input the
variant accepts (that is, whenever its parse returns a report instead of
throwing), totalSuites equals the length of the suites sequence.  Stated
for the three embedded report-producing transforms: the legacy
wrapped-array variant, the Xcode 16 core revision (with its injected
secondary tests payload) and the Xcode 16 registry revision. -/
theorem c6_totalSuites_eq_length :
    (∀ fuel data r, LegacyFormatParser.parse fuel data = .ok r →
      r.totalSuites = r.suites.length) ∧
    (∀ fuel testDetails data r, Xcode16FormatParser.parse fuel testDetails data = .ok r →
      r.totalSuites = r.suites.length) ∧
    (∀ fuel data r, Xcode16Parser.parse fuel data = .ok r →
      r.totalSuites = r.suites.length) := by
  refine ⟨?_, ?_, ?_⟩
  · intro fuel data r h
    unfold LegacyFormatParser.parse at h
    obtain ⟨issues, _, h⟩ := exBind_ok h
    obtain ⟨summaries, _, h⟩ := exBind_ok h
    obtain ⟨suites, _, h⟩ := exBind_ok h
    simp only [Pure.pure, Except.pure, Except.ok.injEq] at h
    subst h
    rfl
  · intro fuel testDetails data r h
    unfold Xcode16FormatParser.parse at h
    obtain ⟨pt, _, h⟩ := exBind_ok h
    obtain ⟨ft, _, h⟩ := exBind_ok h
    obtain ⟨st, _, h⟩ := exBind_ok h
    obtain ⟨sT, _, h⟩ := exBind_ok h
    obtain ⟨fT, _, h⟩ := exBind_ok h
    obtain ⟨tn, _, h⟩ := exBind_ok h
    obtain ⟨tf, _, h⟩ := exBind_ok h
    obtain ⟨suites, _, h⟩ := exBind_ok h
    simp only [Pure.pure, Except.pure, Except.ok.injEq] at h
    subst h
    rfl
  · intro fuel data r h
    unfold Xcode16Parser.parse at h
    obtain ⟨tns, _, h⟩ := exBind_ok h
    obtain ⟨xs, _, h⟩ := exBind_ok h
    obtain ⟨suites, _, h⟩ := exBind_ok h
    simp only [Pure.pure, Except.pure, Except.ok.injEq] at h
    subst h
    rfl

/-! ## C7: no cross-contamination between the failed and passed buckets -/

theorem legacy_parseSuite_clean {fuel : ℕ} {s : JSValue} {su : SuiteResult}
    (h : LegacyFormatParser.parseSuite fuel s = .ok su) : cleanSuite su := by
  unfold LegacyFormatParser.parseSuite at h
  dsimp only at h
  split at h
  · split at h
    · obtain ⟨allTests, _, h⟩ := exBind_ok h
      simp only [Pure.pure, Except.pure, Except.ok.injEq] at h
      subst h
      exact cleanSuite_filters _ _ _
    · obtain ⟨allTests, hbad, h⟩ := exBind_ok h
      exact absurd hbad (by simp)
  · obtain ⟨allTests, _, h⟩ := exBind_ok h
    simp only [Pure.pure, Except.pure, Except.ok.injEq] at h
    subst h
    exact cleanSuite_filters _ _ _

theorem legacy_parseSuiteList_clean {fuel : ℕ} :
    ∀ {xs : List JSValue} {suites : List SuiteResult},
      LegacyFormatParser.parseSuiteList fuel xs = .ok suites →
      ∀ su ∈ suites, cleanSuite su := by
  intro xs
  induction xs with
  | nil =>
      intro suites h su hsu
      simp only [LegacyFormatParser.parseSuiteList] at h
      injection h with h
      subst h
      simp at hsu
  | cons x xs ih =>
      intro suites h su hsu
      simp only [LegacyFormatParser.parseSuiteList] at h
      obtain ⟨s, hs, h⟩ := exBind_ok h
      obtain ⟨rest, hrest, h⟩ := exBind_ok h
      simp only [Pure.pure, Except.pure, Except.ok.injEq] at h
      subst h
      rcases List.mem_cons.mp hsu with h1 | h1
      · subst h1; exact legacy_parseSuite_clean hs
      · exact ih hrest su h1

theorem x16_suitesFromNode_clean {fuelE : ℕ}
    {next : List JSValue → Except String (List SuiteResult)}
    (hnext : ∀ {nodes : List JSValue} {suites : List SuiteResult},
      next nodes = .ok suites → ∀ su ∈ suites, cleanSuite su)
    {node : JSValue} {suites : List SuiteResult}
    (h : Xcode16Parser.suitesFromNode fuelE next node = .ok suites) :
    ∀ su ∈ suites, cleanSuite su := by
  intro su hsu
  unfold Xcode16Parser.suitesFromNode at h
  obtain ⟨nt, hnt, h⟩ := exBind_ok h
  split at h
  · obtain ⟨allTests, _, h⟩ := exBind_ok h
    obtain ⟨nameV, _, h⟩ := exBind_ok h
    simp only [Pure.pure, Except.pure, Except.ok.injEq] at h
    subst h
    rcases List.mem_singleton.mp hsu with rfl
    exact ⟨fun _ ht => jsStrictEqStr_eq (List.mem_filter.mp ht).2,
           fun _ ht => jsStrictEqStr_eq (List.mem_filter.mp ht).2⟩
  · obtain ⟨ch, _, h⟩ := exBind_ok h
    split at h
    · obtain ⟨xs, _, h⟩ := exBind_ok h
      exact hnext h su hsu
    · simp only [Pure.pure, Except.pure, Except.ok.injEq] at h
      subst h
      simp at hsu

theorem x16_createSuitesList_clean :
    ∀ (fuel : ℕ) {nodes : List JSValue} {suites : List SuiteResult},
      Xcode16Parser.createSuitesFromNodeList fuel nodes = .ok suites →
      ∀ su ∈ suites, cleanSuite su := by
  intro fuel
  induction fuel with
  | zero =>
      intro nodes suites h
      exact absurd h (by simp [Xcode16Parser.createSuitesFromNodeList])
  | succ fuel ih =>
      intro nodes
      induction nodes with
      | nil =>
          intro suites h su hsu
          simp only [Xcode16Parser.createSuitesFromNodeList,
            Xcode16Parser.suitesFromNodes] at h
          injection h with h
          subst h
          simp at hsu
      | cons x xs ihl =>
          intro suites h su hsu
          simp only [Xcode16Parser.createSuitesFromNodeList,
            Xcode16Parser.suitesFromNodes] at h
          obtain ⟨a, ha, h⟩ := exBind_ok h
          obtain ⟨b, hb, h⟩ := exBind_ok h
          simp only [Pure.pure, Except.pure, Except.ok.injEq] at h
          subst h
          rcases List.mem_append.mp hsu with h1 | h1
          · exact x16_suitesFromNode_clean (fun {ns ss} hh => ih hh) ha su h1
          · exact ihl (by simp only [Xcode16Parser.createSuitesFromNodeList]; exact hb) su h1

/-- C7: in every Report produced by the embedded variants, and for every
suite in it, the failed sequence holds only TestResults with status
Failure and the passed sequence only TestResults with status Success;
no other status reaches either bucket.  Stated for the legacy
wrapped-array parse, the Xcode 16 registry-revision parse, and the
intermediate object-graph parseSuite. -/
theorem c7_bucket_integrity :
    (∀ fuel data r, LegacyFormatParser.parse fuel data = .ok r →
      ∀ su ∈ r.suites, cleanSuite su) ∧
    (∀ fuel data r, Xcode16Parser.parse fuel data = .ok r →
      ∀ su ∈ r.suites, cleanSuite su) ∧
    (∀ fetchDetails fuel summary su, XCParser.parseSuite fetchDetails fuel summary = .ok su →
      cleanSuite su) := by
  refine ⟨?_, ?_, ?_⟩
  · intro fuel data r h
    unfold LegacyFormatParser.parse at h
    obtain ⟨issues, _, h⟩ := exBind_ok h
    obtain ⟨summaries, _, h⟩ := exBind_ok h
    obtain ⟨suites, hsuites, h⟩ := exBind_ok h
    simp only [Pure.pure, Except.pure, Except.ok.injEq] at h
    subst h
    exact legacy_parseSuiteList_clean hsuites
  · intro fuel data r h
    unfold Xcode16Parser.parse at h
    obtain ⟨tns, _, h⟩ := exBind_ok h
    obtain ⟨xs, _, h⟩ := exBind_ok h
    obtain ⟨suites, hsuites, h⟩ := exBind_ok h
    simp only [Pure.pure, Except.pure, Except.ok.injEq] at h
    subst h
    exact x16_createSuitesList_clean fuel hsuites
  · intro fetchDetails fuel summary su h
    unfold XCParser.parseSuite at h
    dsimp only at h
    split at h
    · split at h
      · obtain ⟨allTests, _, h⟩ := exBind_ok h
        simp only [Pure.pure, Except.pure, Except.ok.injEq] at h
        subst h
        exact cleanSuite_filters _ _ _
      · obtain ⟨allTests, hbad, h⟩ := exBind_ok h
        exact absurd hbad (by simp)
    · obtain ⟨allTests, _, h⟩ := exBind_ok h
      simp only [Pure.pure, Except.pure, Except.ok.injEq] at h
      subst h
      exact cleanSuite_filters _ _ _

/-- C6 witness: the invariant at concrete accepted inputs of each
variant. -/
theorem c6_totalSuites_eq_length_witness :
    (LegacyFormatParser.parse 3 legacyScenarioInput = .ok legacyScenarioReport ∧
      legacyScenarioReport.totalSuites = legacyScenarioReport.suites.length) ∧
    (Xcode16FormatParser.parse 4 x16fDetails x16fSummary = .ok x16fScenarioReport ∧
      x16fScenarioReport.totalSuites = x16fScenarioReport.suites.length) ∧
    (Xcode16Parser.parse 4 nestedScenarioInput = .ok nestedScenarioReport ∧
      nestedScenarioReport.totalSuites = nestedScenarioReport.suites.length) := by
  have h1 : LegacyFormatParser.parse 3 legacyScenarioInput = .ok legacyScenarioReport := by
    with_unfolding_all rfl
  have h2 : Xcode16FormatParser.parse 4 x16fDetails x16fSummary = .ok x16fScenarioReport := by
    with_unfolding_all rfl
  have h3 : Xcode16Parser.parse 4 nestedScenarioInput = .ok nestedScenarioReport := by
    with_unfolding_all rfl
  exact ⟨⟨h1, c6_totalSuites_eq_length.1 3 legacyScenarioInput legacyScenarioReport h1⟩,
    ⟨h2, c6_totalSuites_eq_length.2.1 4 x16fDetails x16fSummary x16fScenarioReport h2⟩,
    ⟨h3, c6_totalSuites_eq_length.2.2 4 nestedScenarioInput nestedScenarioReport h3⟩⟩

/-- C7 witness: bucket integrity at concrete accepted inputs. -/
theorem c7_bucket_integrity_witness :
    Xcode16Parser.parse 4 nestedScenarioInput = .ok nestedScenarioReport ∧
    cleanSuite nestedScenarioSuite ∧
    XCParser.parseSuite xcFetchErr 3 xcSummaryScenario = .ok xcScenarioSuite ∧
    cleanSuite xcScenarioSuite := by
  have h1 : Xcode16Parser.parse 4 nestedScenarioInput = .ok nestedScenarioReport := by
    with_unfolding_all rfl
  have h2 : XCParser.parseSuite xcFetchErr 3 xcSummaryScenario = .ok xcScenarioSuite := by
    with_unfolding_all rfl
  exact ⟨h1,
    c7_bucket_integrity.2.1 4 nestedScenarioInput nestedScenarioReport h1
      nestedScenarioSuite (List.mem_singleton.mpr rfl),
    h2,
    c7_bucket_integrity.2.2 xcFetchErr 3 xcSummaryScenario xcScenarioSuite h2⟩

/-! ## C8: the legacy static failure message -/

/-- C8 (amended): in the legacy wrapped-array variant every test emitted
with a failure message carries exactly the static string Test failed,
and every leaf whose raw testStatus is exactly the string Failure
carries that message.  (A leaf with an unrecognized status token is
mapped to status Failure but carries no failure message at all, which
is what forces the amendment from status-maps-to-Failure down to
raw-status-is-Failure.) -/
theorem c8_legacy_static_failure_message :
    (∀ test r m, LegacyFormatParser.extractTestResult test = some r →
      r.failureMessage = some m → m = JSValue.str "Test failed") ∧
    (∀ test r, LegacyFormatParser.extractTestResult test = some r →
      optChain2 test "testStatus" "_value" = JSValue.str "Failure" →
      r.failureMessage = some (JSValue.str "Test failed")) := by
  constructor
  · intro test r m h hm
    unfold LegacyFormatParser.extractTestResult at h
    split at h
    · exact Option.noConfusion h
    · injection h with h
      subst h
      dsimp only at hm
      split at hm
      · injection hm with hm
        exact hm.symm
      · exact Option.noConfusion hm
  · intro test r h hst
    unfold LegacyFormatParser.extractTestResult at h
    split at h
    · exact Option.noConfusion h
    · injection h with h
      subst h
      dsimp only
      rw [hst]
      rfl

/-- C8 counterexample: the leaf with raw status token Bogus is emitted
with status Failure (the unknown token maps to Failure) but with no
failure message at all, contradicting the claim that every leaf whose
testStatus maps to Failure carries the message Test failed. -/
theorem c8_counterexample :
    LegacyFormatParser.extractTestResult c8BogusTest =
      some ⟨.str "Unknown Test", .str "Failure", .num 0, none⟩ ∧
    (none : Option JSValue) ≠ some (JSValue.str "Test failed") :=
  ⟨rfl, by simp⟩

/-- C8 witness: a leaf whose raw status is exactly Failure receives the
static message. -/
theorem c8_legacy_static_failure_message_witness :
    LegacyFormatParser.extractTestResult c8FailureTest =
      some ⟨.str "Unknown Test", .str "Failure", .num 0, some (.str "Test failed")⟩ ∧
    (⟨.str "Unknown Test", .str "Failure", .num 0,
        some (.str "Test failed")⟩ : TestResult).failureMessage =
      some (JSValue.str "Test failed") :=
  ⟨rfl, c8_legacy_static_failure_message.2 c8FailureTest _ rfl rfl⟩

/-! ## C9: durations are copied from the source -/

/-- C9 (amended): the leaf extraction of the legacy wrapped-array
variant and of the intermediate object-graph variant copies the raw
numeric duration value unchanged and substitutes 0 when the raw value
is not of number type; consequently every emitted duration is a
nonnegative number whenever the raw value is a nonnegative number or
not a number at all, but a negative raw duration is passed through
unchanged (which is what forces the amendment of the unconditional
nonnegativity claim). -/
theorem c9_duration_passthrough :
    (∀ test r, LegacyFormatParser.extractTestResult test = some r →
      r.duration = (if isNumber (optChain2 test "duration" "_value") then
        optChain2 test "duration" "_value" else JSValue.num 0) ∧
      (∀ q, optChain2 test "duration" "_value" = JSValue.num q → 0 ≤ q →
        ∃ p, r.duration = JSValue.num p ∧ 0 ≤ p) ∧
      (isNumber (optChain2 test "duration" "_value") = false →
        r.duration = JSValue.num 0)) ∧
    (∀ fetchDetails test r, XCParser.extractTestResult fetchDetails test = some r →
      r.duration = (if isNumber (optChain2 test "duration" "_value") then
        optChain2 test "duration" "_value" else JSValue.num 0) ∧
      (∀ q, optChain2 test "duration" "_value" = JSValue.num q → 0 ≤ q →
        ∃ p, r.duration = JSValue.num p ∧ 0 ≤ p) ∧
      (isNumber (optChain2 test "duration" "_value") = false →
        r.duration = JSValue.num 0)) := by
  constructor
  · intro test r h
    unfold LegacyFormatParser.extractTestResult at h
    split at h
    · exact Option.noConfusion h
    · injection h with h
      subst h
      refine ⟨rfl, ?_, ?_⟩
      · intro q hq hq0
        exact ⟨q, by dsimp only; rw [hq]; simp [isNumber], hq0⟩
      · intro hnum
        dsimp only
        rw [if_neg (by simp [hnum])]
  · intro fetchDetails test r h
    unfold XCParser.extractTestResult at h
    split at h
    · exact Option.noConfusion h
    · injection h with h
      subst h
      refine ⟨rfl, ?_, ?_⟩
      · intro q hq hq0
        exact ⟨q, by dsimp only; rw [hq]; simp [isNumber], hq0⟩
      · intro hnum
        dsimp only
        rw [if_neg (by simp [hnum])]

/-- C9 counterexample: a full legacy report whose only test carries the
negative duration -1 copied straight from the source, contradicting the
claim that every TestResult duration is nonnegative. -/
theorem c9_counterexample :
    LegacyFormatParser.parse 3 c9NegInput = .ok c9NegReport ∧
    c9NegReport.suites = [⟨.str "S", .num (-1), [],
      [⟨.str "t", .str "Success", .num (-1), none⟩]⟩] ∧
    ¬ (0 : ℚ) ≤ -1 :=
  ⟨by with_unfolding_all rfl, rfl, by norm_num⟩

/-- C9 witness: a nonnegative raw duration is copied unchanged. -/
theorem c9_duration_passthrough_witness :
    LegacyFormatParser.extractTestResult c9PosTest = some c9PosResult ∧
    c9PosResult.duration = (if isNumber (optChain2 c9PosTest "duration" "_value") then
      optChain2 c9PosTest "duration" "_value" else JSValue.num 0) :=
  ⟨rfl, (c9_duration_passthrough.1 c9PosTest c9PosResult rfl).1⟩

/-! ## C5: recognition predicates are total -/

theorem optChain_nullish {x : JSValue} (h : isNullish x = true) (k : String) :
    isNullish (optChain x k) = true := by
  cases x <;> simp_all [optChain, isNullish]

theorem truthy_not_nullish {x : JSValue} (h : truthy x = true) : isNullish x = false := by
  cases x <;> simp_all [truthy, isNullish]

theorem truthy_optChain {x : JSValue} {k : String} (h : truthy (optChain x k) = true) :
    isNullish x = false := by
  cases x <;> simp_all [optChain, truthy, isNullish]

theorem getField_ok {x : JSValue} (k : String) (h : isNullish x = false) :
    getField x k = .ok (optChain x k) := by
  cases x <;> simp_all [getField, isNullish]

theorem bool_true_or_falsy (b : Bool) :
    JSValue.bool b = JSValue.bool true ∨ truthy (JSValue.bool b) = false := by
  cases b
  · exact Or.inr rfl
  · exact Or.inl rfl

theorem chain2_not_nullish {data : JSValue} {k1 k2 : String}
    (h : truthy (optChain2 data k1 k2) = true) :
    isNullish data = false ∧ isNullish (optChain data k1) = false := by
  have h1 : isNullish (optChain data k1) = false := truthy_optChain h
  refine ⟨?_, h1⟩
  by_contra hh
  rw [optChain_nullish (by simpa using hh) k1] at h1
  exact Bool.noConfusion h1

theorem chain3_not_nullish {data : JSValue} {k1 k2 k3 : String}
    (h : truthy (optChain3 data k1 k2 k3) = true) :
    isNullish data = false ∧ isNullish (optChain data k1) = false ∧
      isNullish (optChain2 data k1 k2) = false := by
  have h2 : isNullish (optChain2 data k1 k2) = false := truthy_optChain h
  have h1 : isNullish (optChain data k1) = false := by
    by_contra hh
    rw [show optChain2 data k1 k2 = optChain (optChain data k1) k2 from rfl,
      optChain_nullish (by simpa using hh) k2] at h2
    exact Bool.noConfusion h2
  have h0 : isNullish data = false := by
    by_contra hh
    rw [optChain_nullish (by simpa using hh) k1] at h1
    exact Bool.noConfusion h1
  exact ⟨h0, h1, h2⟩

/-- C5 (amended): every embedded recognition predicate is total — it
never throws, for any input value whatsoever — and its result is truthy
exactly when it recognizes the shape; but the result is not always a
boolean: the registry-revision predicates (LegacyParser, Xcode16Parser,
Xcode15LegacyParser), built from a bare logical and, return the falsy
probed value itself (for example undefined on null input) instead of
false, while only the double-negated revisions always return a genuine
boolean. -/
theorem c5_canparse_total :
    (∀ data, ∃ w, LegacyParser.canParse data = .ok w ∧
      (w = JSValue.bool true ∨ truthy w = false)) ∧
    (∀ data, ∃ w, Xcode16Parser.canParse data = .ok w ∧
      (w = JSValue.bool true ∨ truthy w = false)) ∧
    (∀ data, ∃ w, Xcode15LegacyParser.canParse data = .ok w ∧
      (w = JSValue.bool true ∨ truthy w = false)) ∧
    (∀ data, ∃ w, LegacyFormatParser.canParse data = .ok w ∧ ∃ b, w = JSValue.bool b) ∧
    (∀ data, ∃ w, Xcode15FormatParser.canParse data = .ok w ∧ ∃ b, w = JSValue.bool b) ∧
    (∀ data, ∃ w, Xcode16FormatParser.canParse data = .ok w ∧ ∃ b, w = JSValue.bool b) := by
  refine ⟨?_, ?_, ?_, ?_, ?_, ?_⟩
  · intro data
    by_cases h : truthy (optChain3 data "issues" "testableSummaries" "_values") = true
    · obtain ⟨h0, h1, h2⟩ := chain3_not_nullish h
      refine ⟨.bool (isArray (optChain3 data "issues" "testableSummaries" "_values")),
        ?_, bool_true_or_falsy _⟩
      unfold LegacyParser.canParse
      rw [if_pos h, getField_ok _ h0]
      simp only [Bind.bind, Except.bind]
      rw [show getField (optChain data "issues") "testableSummaries" =
        .ok (optChain2 data "issues" "testableSummaries") from getField_ok _ h1]
      dsimp only
      rw [show getField (optChain2 data "issues" "testableSummaries") "_values" =
        .ok (optChain3 data "issues" "testableSummaries" "_values") from getField_ok _ h2]
      rfl
    · refine ⟨optChain3 data "issues" "testableSummaries" "_values", ?_,
        Or.inr (by simpa using h)⟩
      unfold LegacyParser.canParse
      rw [if_neg h]
      rfl
  · intro data
    by_cases h : truthy (optChain data "testNodes") = true
    · have h0 : isNullish data = false := truthy_optChain h
      refine ⟨.bool (isArray (optChain data "testNodes")), ?_, bool_true_or_falsy _⟩
      unfold Xcode16Parser.canParse
      rw [if_pos h, getField_ok _ h0]
      rfl
    · refine ⟨optChain data "testNodes", ?_, Or.inr (by simpa using h)⟩
      unfold Xcode16Parser.canParse
      rw [if_neg h]
      rfl
  · intro data
    by_cases h : truthy (optChain2 data "actions" "_values") = true
    · obtain ⟨h0, h1⟩ := chain2_not_nullish h
      refine ⟨.bool (isArray (optChain2 data "actions" "_values")), ?_,
        bool_true_or_falsy _⟩
      unfold Xcode15LegacyParser.canParse
      rw [if_pos h, getField_ok _ h0]
      simp only [Bind.bind, Except.bind]
      rw [show getField (optChain data "actions") "_values" =
        .ok (optChain2 data "actions" "_values") from getField_ok _ h1]
      rfl
    · refine ⟨optChain2 data "actions" "_values", ?_, Or.inr (by simpa using h)⟩
      unfold Xcode15LegacyParser.canParse
      rw [if_neg h]
      rfl
  · intro data
    by_cases h : truthy (optChain3 data "issues" "testableSummaries" "_values") = true
    · obtain ⟨h0, h1, h2⟩ := chain3_not_nullish h
      refine ⟨.bool (isArray (optChain3 data "issues" "testableSummaries" "_values")),
        ?_, ⟨_, rfl⟩⟩
      unfold LegacyFormatParser.canParse
      rw [if_pos h, getField_ok _ h0]
      simp only [Bind.bind, Except.bind]
      rw [show getField (optChain data "issues") "testableSummaries" =
        .ok (optChain2 data "issues" "testableSummaries") from getField_ok _ h1]
      dsimp only
      rw [show getField (optChain2 data "issues" "testableSummaries") "_values" =
        .ok (optChain3 data "issues" "testableSummaries" "_values") from getField_ok _ h2]
      rfl
    · refine ⟨.bool false, ?_, ⟨false, rfl⟩⟩
      unfold LegacyFormatParser.canParse
      rw [if_neg h]
      rfl
  · intro data
    by_cases h : truthy (optChain2 data "actions" "_values") = true
    · obtain ⟨h0, h1⟩ := chain2_not_nullish h
      refine ⟨.bool (isArray (optChain2 data "actions" "_values")), ?_, ⟨_, rfl⟩⟩
      unfold Xcode15FormatParser.canParse
      rw [if_pos h, getField_ok _ h0]
      simp only [Bind.bind, Except.bind]
      rw [show getField (optChain data "actions") "_values" =
        .ok (optChain2 data "actions" "_values") from getField_ok _ h1]
      rfl
    · refine ⟨.bool false, ?_, ⟨false, rfl⟩⟩
      unfold Xcode15FormatParser.canParse
      rw [if_neg h]
      rfl
  · intro data
    by_cases h : truthy (optChain data "devicesAndConfigurations") = true
    · have h0 : isNullish data = false := truthy_optChain h
      by_cases ha : isArray (optChain data "devicesAndConfigurations") = true
      · refine ⟨.bool (isNumber (optChain data "passedTests") &&
          isNumber (optChain data "failedTests")), ?_, ⟨_, rfl⟩⟩
        unfold Xcode16FormatParser.canParse
        rw [if_pos h, getField_ok _ h0]
        simp only [Bind.bind, Except.bind]
        rw [if_pos ha]
        rfl
      · refine ⟨.bool false, ?_, ⟨false, rfl⟩⟩
        unfold Xcode16FormatParser.canParse
        rw [if_pos h, getField_ok _ h0]
        simp only [Bind.bind, Except.bind]
        rw [if_neg ha]
        rfl
    · refine ⟨.bool false, ?_, ⟨false, rfl⟩⟩
      unfold Xcode16FormatParser.canParse
      rw [if_neg h]
      rfl

/-- C5 counterexample: on input null the registry-revision predicates
return undefined, which is a falsy value but not a boolean. -/
theorem c5_counterexample :
    LegacyParser.canParse JSValue.null = .ok JSValue.undefined ∧
    Xcode16Parser.canParse JSValue.null = .ok JSValue.undefined ∧
    Xcode15LegacyParser.canParse JSValue.null = .ok JSValue.undefined ∧
    JSValue.undefined ≠ JSValue.bool true ∧
    JSValue.undefined ≠ JSValue.bool false :=
  ⟨rfl, rfl, rfl, by simp, by simp⟩

/-! ## C1, C2, C10: registry iteration and the aggregate error -/

/-- C1: with parser A at priority 100 (canParse truthy, parse throws)
and parser B at priority 90 (canParse truthy, parse succeeds),
registering them in either order yields the descending-priority list
[A, B], and registry parse returns the report of B without raising: the
error thrown by A is captured and iteration continues to the
next-lower-priority parser. -/
theorem c1_registry_fallback (A B : FormatParser) (bundlePath : String)
    (data : JSValue) (r : Report) (eA : String) (va vb : JSValue)
    (hpA : A.priority = 100) (hpB : B.priority = 90)
    (hcA : A.canParse data = .ok va) (htA : truthy va = true)
    (hfA : A.parse bundlePath data = .error eA)
    (hcB : B.canParse data = .ok vb) (htB : truthy vb = true)
    (hok : B.parse bundlePath data = .ok r) :
    ParserRegistry.register (ParserRegistry.register [] A) B = [A, B] ∧
    ParserRegistry.register (ParserRegistry.register [] B) A = [A, B] ∧
    ParserRegistry.parse [A, B] bundlePath data = .ok r := by
  refine ⟨?_, ?_, ?_⟩
  · unfold ParserRegistry.register sortByPriorityDesc sortByPriorityDesc
      sortByPriorityDesc insertByPriority insertByPriority
    simp [hpA, hpB]
  · unfold ParserRegistry.register sortByPriorityDesc sortByPriorityDesc
      sortByPriorityDesc insertByPriority insertByPriority
    simp [hpA, hpB]
  · unfold ParserRegistry.parse
    simp only [registryParseGo, hcA, hfA, hcB, hok, htA, htB, if_true]

/-- C1 witness: the fallback at two concrete parsers. -/
theorem c1_registry_fallback_witness :
    ParserRegistry.register (ParserRegistry.register [] regParserA) regParserB =
      [regParserA, regParserB] ∧
    ParserRegistry.register (ParserRegistry.register [] regParserB) regParserA =
      [regParserA, regParserB] ∧
    ParserRegistry.parse [regParserA, regParserB] "bundle" JSValue.null =
      .ok sampleReport :=
  c1_registry_fallback regParserA regParserB "bundle" JSValue.null sampleReport
    "boom" (.bool true) (.bool true) rfl rfl rfl rfl rfl rfl rfl rfl

theorem registryParseGo_all_fail (bundlePath : String) (data : JSValue)
    (allParsers : List FormatParser) :
    ∀ (rest : List FormatParser) (errs : List String),
      (∀ p ∈ rest, parserFails bundlePath data p) →
      registryParseGo bundlePath data allParsers rest errs =
        .error (noParserMsg (errs ++ allCapturedErrs bundlePath data rest) allParsers) := by
  intro rest
  induction rest with
  | nil =>
      intro errs _
      simp [registryParseGo, allCapturedErrs]
  | cons p ps ih =>
      intro errs hall
      have hp := hall p (List.mem_cons_self ..)
      have hps : ∀ q ∈ ps, parserFails bundlePath data q :=
        fun q hq => hall q (List.mem_cons_of_mem _ hq)
      rcases hp with ⟨e, he⟩ | ⟨v, hv, htv⟩ | ⟨v, e, hv, htv, he⟩
      · simp only [registryParseGo, he]
        rw [ih _ hps]
        simp [capturedErrs, he, allCapturedErrs]
      · simp only [registryParseGo, hv, htv]
        rw [if_neg (by simp [htv]), ih _ hps]
        simp [capturedErrs, hv, htv, allCapturedErrs]
      · simp only [registryParseGo, hv, htv, he, if_true]
        rw [ih _ hps]
        simp [capturedErrs, hv, htv, he, allCapturedErrs]

theorem strContains_append_left {s pat : String} (h : StrContains s pat)
    (t : String) : StrContains (s ++ t) pat := by
  obtain ⟨u, w, huw⟩ := h
  exact ⟨u, w ++ t.data, by
    rw [show (s ++ t).data = s.data ++ t.data from rfl, ← huw]
    simp⟩

theorem strContains_append_right {s pat : String} (h : StrContains s pat)
    (t : String) : StrContains (t ++ s) pat := by
  obtain ⟨u, w, huw⟩ := h
  exact ⟨t.data ++ u, w, by
    rw [show (t ++ s).data = t.data ++ s.data from rfl, ← huw]
    simp⟩

theorem strContains_self (s : String) : StrContains s s :=
  ⟨[], [], by simp⟩

theorem strContains_jsJoin (sep : String) :
    ∀ {l : List String} {x : String}, x ∈ l → StrContains (jsJoin sep l) x := by
  intro l
  induction l with
  | nil => intro x hx; simp at hx
  | cons a rest ih =>
      intro x hx
      cases rest with
      | nil =>
          rcases List.mem_singleton.mp hx with rfl
          exact strContains_self x
      | cons b rest' =>
          rcases List.mem_cons.mp hx with rfl | hx'
          · exact strContains_append_left (strContains_append_left
              (strContains_self x) sep) _
          · exact strContains_append_right (ih hx') _

theorem noParserMsg_contains_name {parsers : List FormatParser} {p : FormatParser}
    (hp : p ∈ parsers) (errs : List String) :
    StrContains (noParserMsg errs parsers) p.name := by
  unfold noParserMsg
  exact strContains_append_right
    (strContains_jsJoin _ (List.mem_map_of_mem (fun q => q.name) hp)) _

theorem noParserMsg_contains_err {errs : List String} {e : String} (he : e ∈ errs)
    (parsers : List FormatParser) :
    StrContains (noParserMsg errs parsers) e := by
  unfold noParserMsg
  exact strContains_append_left (strContains_append_left (strContains_append_left
    (strContains_append_right (strContains_jsJoin _ he) _) _) _) _

/-- C2: when every registered parser fails to deliver a report (its
canParse is falsy or throws, or its parse throws after claiming the
data), registry parse raises a single aggregate error whose message is
built from exactly the captured per-parser error messages and whose
text contains the name of every registered parser and every captured
error message. -/
theorem c2_aggregate_error (parsers : List FormatParser) (bundlePath : String)
    (data : JSValue) (h : ∀ p ∈ parsers, parserFails bundlePath data p) :
    ParserRegistry.parse parsers bundlePath data =
      .error (noParserMsg (allCapturedErrs bundlePath data parsers) parsers) ∧
    (∀ p ∈ parsers,
      StrContains (noParserMsg (allCapturedErrs bundlePath data parsers) parsers)
        p.name) ∧
    (∀ e ∈ allCapturedErrs bundlePath data parsers,
      StrContains (noParserMsg (allCapturedErrs bundlePath data parsers) parsers)
        e) := by
  refine ⟨?_, ?_, ?_⟩
  · have hgo := registryParseGo_all_fail bundlePath data parsers parsers [] h
    simpa [ParserRegistry.parse] using hgo
  · intro p hp
    exact noParserMsg_contains_name hp _
  · intro e he
    exact noParserMsg_contains_err he _

/-- C2 witness: a parser that claims the data but throws and a parser
that declines; the aggregate message carries both names and the one
captured error. -/
theorem c2_aggregate_error_witness :
    ParserRegistry.parse [regParserA, regParserD] "bundle" JSValue.null =
      .error (noParserMsg (allCapturedErrs "bundle" JSValue.null
        [regParserA, regParserD]) [regParserA, regParserD]) ∧
    StrContains (noParserMsg (allCapturedErrs "bundle" JSValue.null
      [regParserA, regParserD]) [regParserA, regParserD]) regParserA.name ∧
    StrContains (noParserMsg (allCapturedErrs "bundle" JSValue.null
      [regParserA, regParserD]) [regParserA, regParserD]) regParserD.name ∧
    StrContains (noParserMsg (allCapturedErrs "bundle" JSValue.null
      [regParserA, regParserD]) [regParserA, regParserD])
      (parserFailedMsg regParserA "boom") := by
  have hfail : ∀ p ∈ [regParserA, regParserD],
      parserFails "bundle" JSValue.null p := by
    intro p hp
    rcases List.mem_cons.mp hp with rfl | hp'
    · exact Or.inr (Or.inr ⟨.bool true, "boom", rfl, rfl, rfl⟩)
    · rcases List.mem_singleton.mp hp' with rfl
      exact Or.inr (Or.inl ⟨.bool false, rfl, rfl⟩)
  have h := c2_aggregate_error [regParserA, regParserD] "bundle" JSValue.null hfail
  refine ⟨h.1, h.2.1 _ (by simp), h.2.1 _ (by simp), h.2.2 _ ?_⟩
  show parserFailedMsg regParserA "boom" ∈
    allCapturedErrs "bundle" JSValue.null [regParserA, regParserD]
  exact List.Mem.head _

/-- C10: a canParse that throws is tolerated by the registry iteration:
the exception is caught, recorded among the aggregate errors, and the
iteration continues with the remaining lower-priority parsers; in
particular a subsequent parser that claims the data and succeeds still
delivers its report. -/
theorem c10_canparse_throw_tolerated (p : FormatParser)
    (rest allParsers : List FormatParser) (bundlePath : String) (data : JSValue)
    (e : String) (errs : List String) (hc : p.canParse data = .error e) :
    registryParseGo bundlePath data allParsers (p :: rest) errs =
      registryParseGo bundlePath data allParsers rest
        (errs ++ [parserFailedMsg p e]) ∧
    (∀ (q : FormatParser) (vq : JSValue) (r : Report),
      q.canParse data = .ok vq → truthy vq = true →
      q.parse bundlePath data = .ok r →
      ParserRegistry.parse [p, q] bundlePath data = .ok r) := by
  constructor
  · simp only [registryParseGo, hc]
  · intro q vq r hq ht hr
    unfold ParserRegistry.parse
    simp only [registryParseGo, hc, hq, ht, hr, if_true]

/-- C10 witness: a concrete canParse throw followed by a succeeding
parser. -/
theorem c10_canparse_throw_tolerated_witness :
    registryParseGo "bundle" JSValue.null [regParserC, regParserB]
      [regParserC, regParserB] [] =
      registryParseGo "bundle" JSValue.null [regParserC, regParserB]
        [regParserB] ([] ++ [parserFailedMsg regParserC "probe exploded"]) ∧
    ParserRegistry.parse [regParserC, regParserB] "bundle" JSValue.null =
      .ok sampleReport := by
  have h := c10_canparse_throw_tolerated regParserC [regParserB]
    [regParserC, regParserB] "bundle" JSValue.null "probe exploded" [] rfl
  exact ⟨h.1, h.2 regParserB (.bool true) sampleReport rfl rfl rfl⟩

/-! ## C4: detail-fetch failure still emits the test, without a message -/

/-- C4: in the intermediate object-graph variant, when the per-test
detail fetch for a failing leaf with a truthy summary-reference id
either throws or the collaborator returns null (or any falsy payload),
the test is still emitted — with the raw status string Failure, the
usual name and duration, and no failureMessage field at all (not even
the Test failed fallback); the error is swallowed inside
extractTestResult and never aborts the surrounding parse. -/
theorem c4_detail_fetch_failure (fetchDetails : JSValue → Except String JSValue)
    (test : JSValue)
    (hleaf : truthy (jsOr (optChain3 test "subtests" "_values" "length")
      (optChain3 test "children" "_values" "length")) = false)
    (hst : optChain2 test "testStatus" "_value" = JSValue.str "Failure")
    (hid : truthy (optChain3 test "summaryRef" "id" "_value") = true)
    (hfetch : (∃ e, fetchDetails (optChain3 test "summaryRef" "id" "_value") =
        .error e) ∨
      (∃ d, fetchDetails (optChain3 test "summaryRef" "id" "_value") = .ok d ∧
        truthy d = false)) :
    XCParser.extractTestResult fetchDetails test =
      some ⟨jsOr (optChain2 test "identifier" "_value") (.str "Unknown Test"),
            JSValue.str "Failure",
            (if isNumber (optChain2 test "duration" "_value") then
              optChain2 test "duration" "_value" else JSValue.num 0),
            none⟩ := by
  unfold XCParser.extractTestResult
  rw [if_neg (by simp [hleaf])]
  dsimp only
  rw [hst, hid]
  rcases hfetch with ⟨e, he⟩ | ⟨d, hd, htd⟩
  · rw [he]
    rfl
  · rw [hd]
    simp only [Bind.bind, Except.bind]
    rw [htd]
    rfl

/-- C4 witness: the fallback on a concrete failing leaf for a throwing
fetch and for a null-returning collaborator. -/
theorem c4_detail_fetch_failure_witness :
    XCParser.extractTestResult xcFetchErr xcFailingTest =
      some ⟨.str "t", .str "Failure", .num 0, none⟩ ∧
    XCParser.extractTestResult xcFetchNull xcFailingTest =
      some ⟨.str "t", .str "Failure", .num 0, none⟩ := by
  constructor
  · exact c4_detail_fetch_failure xcFetchErr xcFailingTest rfl rfl rfl
      (Or.inl ⟨"io", rfl⟩)
  · exact c4_detail_fetch_failure xcFetchNull xcFailingTest rfl rfl rfl
      (Or.inr ⟨.null, rfl, rfl⟩)

/-! ## C3: the failure-message priority order -/

theorem isFailedTitle_truthy {t : JSValue} (h : isFailedTitle t = true) :
    truthy t = true := by
  cases t <;> simp_all [isFailedTitle, truthy]

theorem isFailedTitle_of_falsy {t : JSValue} (h : truthy t = false) :
    isFailedTitle t = false := by
  cases t <;> simp_all [isFailedTitle, truthy]

theorem scanActivities_eq :
    ∀ {acts : List JSValue},
      (∀ a ∈ acts, isNullish a = false) →
      (∀ a ∈ acts, truthy (optChain2 a "title" "_value") = true →
        ∃ s, optChain2 a "title" "_value" = JSValue.str s) →
      XCParser.scanActivities acts =
        .ok ((acts.find? (fun a => isFailedTitle (optChain2 a "title" "_value"))).map
          (fun a => optChain2 a "title" "_value")) := by
  intro acts
  induction acts with
  | nil => intro _ _; rfl
  | cons a rest ih =>
      intro hN hall
      have hNa : isNullish a = false := hN a (List.mem_cons_self ..)
      have hNrest : ∀ q ∈ rest, isNullish q = false :=
        fun q hq => hN q (List.mem_cons_of_mem _ hq)
      have hrest : ∀ q ∈ rest, truthy (optChain2 q "title" "_value") = true →
          ∃ s, optChain2 q "title" "_value" = JSValue.str s :=
        fun q hq => hall q (List.mem_cons_of_mem _ hq)
      by_cases ht : truthy (optChain2 a "title" "_value") = true
      · obtain ⟨s, hs⟩ := hall a (List.mem_cons_self ..) ht
        have hs2 : optChain (optChain a "title") "_value" = JSValue.str s := hs
        have ht2 : truthy (optChain (optChain a "title") "_value") = true := ht
        have hne : (s != "") = true := by
          rw [hs] at ht
          simpa [truthy] using ht
        by_cases hf : strContainsB s "failed" = true
        · have hpred : isFailedTitle (optChain2 a "title" "_value") = true := by
            rw [hs]
            simp [isFailedTitle, hne, hf]
          unfold XCParser.scanActivities
          rw [show getField a "title" = .ok (optChain a "title") from
            getField_ok _ hNa]
          simp only [Bind.bind, Except.bind]
          rw [if_pos ht2, hs2]
          simp only [includesFailed, Bind.bind, Except.bind]
          have hfind : List.find?
              (fun x => isFailedTitle (optChain2 x "title" "_value")) (a :: rest) =
              some a := by
            simp only [List.find?]
            rw [hpred]
          rw [if_pos hf, hfind]
          simp [hs, Option.map, Pure.pure, Except.pure]
        · have hpred : isFailedTitle (optChain2 a "title" "_value") = false := by
            rw [hs]
            simp [isFailedTitle, hf]
          unfold XCParser.scanActivities
          rw [show getField a "title" = .ok (optChain a "title") from
            getField_ok _ hNa]
          simp only [Bind.bind, Except.bind]
          rw [if_pos ht2, hs2]
          simp only [includesFailed, Bind.bind, Except.bind]
          have hfind : List.find?
              (fun x => isFailedTitle (optChain2 x "title" "_value")) (a :: rest) =
              List.find? (fun x => isFailedTitle (optChain2 x "title" "_value")) rest := by
            simp only [List.find?]
            rw [hpred]
          rw [if_neg hf, hfind]
          exact ih hNrest hrest
      · have hpred : isFailedTitle (optChain2 a "title" "_value") = false :=
          isFailedTitle_of_falsy (by simpa using ht)
        have ht2 : ¬ truthy (optChain (optChain a "title") "_value") = true := ht
        unfold XCParser.scanActivities
        rw [show getField a "title" = .ok (optChain a "title") from
          getField_ok _ hNa]
        simp only [Bind.bind, Except.bind]
        have hfind : List.find?
            (fun x => isFailedTitle (optChain2 x "title" "_value")) (a :: rest) =
            List.find? (fun x => isFailedTitle (optChain2 x "title" "_value")) rest := by
          simp only [List.find?]
          rw [hpred]
        rw [if_neg ht2, hfind]
        exact ih hNrest hrest

theorem truthy_jsOr_testFailed (m : JSValue) :
    truthy (jsOr m (.str "Test failed")) = true := by
  unfold jsOr
  by_cases h : truthy m = true
  · rwa [if_pos h]
  · rw [if_neg h]
    rfl

theorem specFailureMessage_truthy (fs ss tfs acts : List JSValue) :
    truthy (specFailureMessage fs ss tfs acts) = true := by
  unfold specFailureMessage
  cases fs with
  | cons f fs' =>
      dsimp only
      by_cases h : truthy (optChain2 f "message" "_value") = true
      · rwa [if_pos h]
      · rw [if_neg h]
        rfl
  | nil =>
      dsimp only
      cases hcat : ss ++ tfs with
      | cons firstSummary rest =>
          dsimp only
          by_cases hm : truthy (optChain2 firstSummary "message" "_value") = true
          · rwa [if_pos hm]
          · rw [if_neg hm]
            by_cases htl : truthy (optChain2 firstSummary "title" "_value") = true
            · rwa [if_pos htl]
            · rw [if_neg htl]
              rfl
      | nil =>
          dsimp only
          cases hfind : acts.find?
              (fun a => isFailedTitle (optChain2 a "title" "_value")) with
          | some a =>
              dsimp only
              exact isFailedTitle_truthy (by simpa using List.find?_some hfind)
          | none => rfl

theorem resolveFailureMessage_spec (fs ss tfs acts : List JSValue)
    (hfs : ∀ v ∈ fs, isNullish v = false)
    (hss : ∀ v ∈ ss ++ tfs, isNullish v = false)
    (hactsN : ∀ a ∈ acts, isNullish a = false)
    (hacts : ∀ a ∈ acts, truthy (optChain2 a "title" "_value") = true →
      ∃ s, optChain2 a "title" "_value" = JSValue.str s) :
    XCParser.resolveFailureMessage (detailsPayload fs ss tfs acts) =
      .ok (some (specFailureMessage fs ss tfs acts)) := by
  unfold XCParser.resolveFailureMessage
  cases fs with
  | cons f fs' =>
      have hmem : isNullish f = false := hfs f (List.mem_cons_self ..)
      have hgt : jsGtZero (optChain (JSValue.arr (f :: fs')) "length") = true := by
        simp [optChain, jsGtZero, toPrimitive, toNumber]
        positivity
      rw [show jsOr (optChain2 (detailsPayload (f :: fs') ss tfs acts)
        "failureSummaries" "_values") (JSValue.arr []) = JSValue.arr (f :: fs')
        from rfl]
      rw [if_pos hgt]
      dsimp only
      rw [show getField (jsIndex0 (JSValue.arr (f :: fs'))) "message" =
        .ok (optChain f "message") from getField_ok _ hmem]
      have ht1 : truthy (if truthy (optChain (optChain f "message") "_value") = true
          then optChain (optChain f "message") "_value"
          else JSValue.str "Test failed") = true := truthy_jsOr_testFailed _
      simp [Bind.bind, Except.bind, Pure.pure, Except.pure, truthyOpt, ht1,
        specFailureMessage, jsOr, optChain2]
  | nil =>
      rw [show jsOr (optChain2 (detailsPayload [] ss tfs acts)
        "failureSummaries" "_values") (JSValue.arr []) = JSValue.arr []
        from rfl]
      rw [if_neg (show ¬ jsGtZero (optChain (JSValue.arr
        ([] : List JSValue)) "length") = true by simp [optChain, jsGtZero,
          toPrimitive, toNumber])]
      rw [show jsOr (optChain2 (detailsPayload [] ss tfs acts)
        "summaries" "_values") (JSValue.arr []) = JSValue.arr ss from rfl]
      rw [show jsOr (optChain2 (detailsPayload [] ss tfs acts)
        "testFailureSummaries" "_values") (JSValue.arr []) = JSValue.arr tfs
        from rfl]
      dsimp only
      simp only [Bind.bind, Except.bind, truthyOpt, Bool.not_false,
        jsSpreadList, if_true, Pure.pure, Except.pure]
      cases hcat : ss ++ tfs with
      | cons firstSummary rest =>
          have hmem : isNullish firstSummary = false := by
            apply hss
            rw [hcat]
            exact List.mem_cons_self ..
          dsimp only
          rw [show getField firstSummary "message" =
            .ok (optChain firstSummary "message") from getField_ok _ hmem]
          by_cases hm : truthy (optChain (optChain firstSummary "message")
              "_value") = true
          · simp [Bind.bind, Except.bind, Pure.pure, Except.pure, truthyOpt, hm,
              specFailureMessage, hcat, jsOr, optChain2]
          · rw [show getField firstSummary "title" =
              .ok (optChain firstSummary "title") from getField_ok _ hmem]
            have ht2 : truthy (if truthy (optChain (optChain firstSummary "title")
                "_value") = true then optChain (optChain firstSummary "title") "_value"
                else JSValue.str "Test failed") = true := truthy_jsOr_testFailed _
            simp [Bind.bind, Except.bind, Pure.pure, Except.pure, truthyOpt, hm,
              ht2, specFailureMessage, hcat, jsOr, optChain2]
      | nil =>
          dsimp only
          rw [show optChain2 (detailsPayload [] ss tfs acts)
            "activitySummaries" "_values" = JSValue.arr acts from rfl]
          dsimp only
          rw [scanActivities_eq hactsN hacts]
          cases hfind : acts.find?
              (fun a => isFailedTitle (optChain2 a "title" "_value")) with
          | some a =>
              have hta : truthy (optChain (optChain a "title") "_value") = true :=
                isFailedTitle_truthy (by simpa using List.find?_some hfind)
              have hfind2 : List.find?
                  (fun x => isFailedTitle (optChain (optChain x "title") "_value"))
                  acts = some a := hfind
              simp [Bind.bind, Except.bind, Pure.pure, Except.pure, truthyOpt,
                hta, specFailureMessage, hfind2, optChain2, hcat,
                show truthy (JSValue.arr acts) = true from rfl]
          | none =>
              have hfind2 : List.find?
                  (fun x => isFailedTitle (optChain (optChain x "title") "_value"))
                  acts = none := hfind
              simp [Bind.bind, Except.bind, Pure.pure, Except.pure, truthyOpt,
                specFailureMessage, hfind2, optChain2, hcat,
                show truthy (JSValue.arr acts) = true from rfl]

/-- C3 (amended): for a failing leaf with a truthy summary-reference id
whose detail payload (carrying the failureSummaries, summaries,
testFailureSummaries and activitySummaries lists) is successfully
fetched, the failure message equals the spec-side specFailureMessage,
i.e. it is resolved in this order: (1) when the failureSummaries list
is non-empty, its first entry decides the message — that entry's
message, or the literal Test failed when it has no truthy message — and
the later steps are not consulted; (2) otherwise the first entry of
summaries concatenated with testFailureSummaries decides it the same
way, preferring message over title; (3) otherwise the first
activitySummaries entry whose title contains the substring failed; (4)
otherwise the literal Test failed.  (The amendment is forced by the
short-circuit in steps 1 and 2: a non-empty list whose first entry
lacks a message yields Test failed instead of falling through.)  The
list entries are assumed non-nullish and activity titles, when truthy,
strings — otherwise the source throws internally and the message is
dropped altogether. -/
theorem c3_message_priority (fetchDetails : JSValue → Except String JSValue)
    (test : JSValue) (fs ss tfs acts : List JSValue)
    (hleaf : truthy (jsOr (optChain3 test "subtests" "_values" "length")
      (optChain3 test "children" "_values" "length")) = false)
    (hst : optChain2 test "testStatus" "_value" = JSValue.str "Failure")
    (hid : truthy (optChain3 test "summaryRef" "id" "_value") = true)
    (hfetch : fetchDetails (optChain3 test "summaryRef" "id" "_value") =
      .ok (detailsPayload fs ss tfs acts))
    (hfs : ∀ v ∈ fs, isNullish v = false)
    (hss : ∀ v ∈ ss ++ tfs, isNullish v = false)
    (hactsN : ∀ a ∈ acts, isNullish a = false)
    (hacts : ∀ a ∈ acts, truthy (optChain2 a "title" "_value") = true →
      ∃ s, optChain2 a "title" "_value" = JSValue.str s) :
    XCParser.extractTestResult fetchDetails test =
      some ⟨jsOr (optChain2 test "identifier" "_value") (.str "Unknown Test"),
            JSValue.str "Failure",
            (if isNumber (optChain2 test "duration" "_value") then
              optChain2 test "duration" "_value" else JSValue.num 0),
            some (specFailureMessage fs ss tfs acts)⟩ := by
  unfold XCParser.extractTestResult
  rw [if_neg (by simp [hleaf])]
  dsimp only
  rw [hst, hid, hfetch]
  simp only [Bind.bind, Except.bind]
  rw [show truthy (detailsPayload fs ss tfs acts) = true from rfl]
  rw [show XCParser.resolveFailureMessage (validateAndLog (detailsPayload fs ss tfs acts)) =
    XCParser.resolveFailureMessage (detailsPayload fs ss tfs acts) from rfl]
  rw [resolveFailureMessage_spec fs ss tfs acts hfs hss hactsN hacts]
  rw [if_pos (show (jsStrictEqStr (jsOr (JSValue.str "Failure")
    (JSValue.str "Unknown")) "Failure" && true) = true from rfl)]
  rw [show (if (true = true) then Except.ok (some (specFailureMessage fs ss tfs acts))
    else (pure none : Except String (Option JSValue))) =
    Except.ok (some (specFailureMessage fs ss tfs acts)) from rfl]
  dsimp only
  rw [if_pos (specFailureMessage_truthy fs ss tfs acts)]
  rfl

/-- C3 counterexample: the detail payload whose failureSummaries list
holds a single message-less entry while the summaries list's first
entry carries the message boom resolves to the literal Test failed —
the step-1 short-circuit — and not to boom as the claimed exact
priority order would require. -/
theorem c3_counterexample :
    XCParser.extractTestResult c3CounterFetch xcFailingTest =
      some ⟨.str "t", .str "Failure", .num 0, some (.str "Test failed")⟩ ∧
    JSValue.str "Test failed" ≠ JSValue.str "boom" :=
  ⟨by with_unfolding_all rfl, by simp⟩

/-- C3 witness: with an empty failureSummaries list and a summaries
list whose first entry carries the message boom, the resolved message
is the spec-side step-2 result boom. -/
theorem c3_message_priority_witness :
    XCParser.extractTestResult c3WitnessFetch xcFailingTest =
      some ⟨.str "t", .str "Failure", .num 0,
        some (specFailureMessage [] c3SummariesList [] [])⟩ ∧
    specFailureMessage [] c3SummariesList [] [] = .str "boom" := by
  constructor
  · exact c3_message_priority c3WitnessFetch xcFailingTest [] c3SummariesList [] []
      rfl rfl rfl rfl (by simp)
      (by
        intro v hv
        simp [c3SummariesList] at hv
        subst hv
        rfl)
      (by simp)
      (by simp)
  · with_unfolding_all rfl
